import Mathlib

/-!
# kgran~ / sgran~ : the grain engine of `src/KGRAN~.c` and `src/SGRAN~.c`

A shallow embedding of the stochastic sampler `prob`, the parameter messages,
the grain spawner `kgran_new_grain`, the re-arm `kgran_reset_grain_rate` and the
render routine `kgran_perform64`.

Conventions of the embedding.

* The engine (messages, spawner, re-arm, render routine) is embedded with C
  `double` and `float` values as exact rationals (`ℚ`) and C `int`/`long` values
  as unbounded integers.
* `prob` and the writes of `kgran_new_grain` are embedded a second time, in
  `KGran.Ieee`, in the arithmetic of the machine: IEEE binary64 and binary32
  with NaN, the infinities and rounding, and an `int` of 32 bits.  What is
  claimed of the values `prob` returns, of its termination and of the end time
  of a grain is stated there.
* `rand()` is a finite list of the values its next calls return; a function that
  needs more values than the list holds yields `none`.  The list therefore also
  bounds the number of iterations of the rejection loop of `prob`.
* What the C library and the Max host supply (`pow`, `RAND_MAX`, `sys_getsr`) is
  collected in `Host`, and in `Libm` for `KGran.Ieee`.
* `none` also stands for behaviour C leaves undefined (a read outside a sample
  table, a remainder by zero, a conversion to `int` of a value out of its range)
  and for a loop that does not terminate.
-/

namespace KGran

/-! ## Numeric conversions of C -/

/-- Conversion of a floating value to `int`: truncation toward zero. -/
def cTrunc (q : ℚ) : ℤ := if 0 ≤ q then ⌊q⌋ else ⌈q⌉

/-- The function `round` of `math.h`: nearest integer, halves away from zero. -/
def cRound (q : ℚ) : ℤ := if 0 ≤ q then ⌊q + 1 / 2⌋ else ⌈q - 1 / 2⌉

/-- The function `floor` of `math.h`. -/
def cFloor (q : ℚ) : ℤ := ⌊q⌋

/-- The function `abs` of `stdlib.h`: it takes an `int`, so a floating argument
is first truncated. -/
def cAbs (q : ℚ) : ℤ := |cTrunc q|

/-! ## The host -/

/-- What the C library and the Max host supply to the external. -/
structure Host where
  /-- The function `pow` of `math.h`. -/
  pow : ℚ → ℚ → ℚ
  /-- The constant `RAND_MAX` of `stdlib.h`. -/
  RAND_MAX : ℕ
  /-- The value `sys_getsr()` returns: the sampling rate. -/
  sr : ℚ

/-- An instance of `pow` that is exact whenever the exponent is an integer
(and the result is finite): `powInt x t = x ^ ⌊t⌋`. -/
def powInt (x t : ℚ) : ℚ := x ^ ⌊t⌋

/-- A host running at 44100 Hz, with the `RAND_MAX` of a 31 bit `rand()`. -/
def host44100 : Host := { pow := powInt, RAND_MAX := 2147483647, sr := 44100 }

/-! ## `rrand` and `prob` (identical in both source files) -/

/-- The function `rrand`, applied to the value `r` that `rand()` returned. -/
def rrand (h : Host) (r : ℕ) : ℚ :=
  let min : ℚ := -1
  let max : ℚ := 1
  let range := max - min
  let div := (h.RAND_MAX : ℚ) / range
  min + (r : ℚ) / div

/-- The candidate `num` one iteration of the loop of `prob` computes from the
two values `r1`, `r2` of `rand()` it takes. -/
def prob_num (h : Host) (mid tight range : ℚ) (r1 r2 : ℕ) : ℚ :=
  let sign : ℚ := if rrand h r1 > 0 then 1 else -1
  mid + sign * (h.pow ((rrand h r2 + 1) * (1 / 2)) tight * range)

/-- The `do ... while` loop of `prob`.  One iteration takes two values of
`rand()`: the first decides `sign`, the second the distance from `mid`.  The
result is the accepted `num` and the values of `rand()` not yet used. -/
def prob_loop (h : Host) (low mid high tight range : ℚ) :
    List ℕ → Option (ℚ × List ℕ)
  | r1 :: r2 :: rest =>
    let num := prob_num h mid tight range r1 r2
    if num < low ∨ num > high then prob_loop h low mid high tight range rest
    else some (num, rest)
  | _ => none

/-- The function `prob`. -/
def prob (h : Host) (low mid high tight : ℚ) (rs : List ℕ) : Option (ℚ × List ℕ) :=
  let range := if (high - mid) > (mid - low) then high - mid else mid - low
  prob_loop h low mid high tight range rs

/-! ## Pitch conversion -/

/-- The constant `MIDC_OFFSET`. -/
def MIDC_OFFSET : ℚ := 261.62556530059868 / 256.0

/-- The function `cpsoct`. -/
def cpsoct (h : Host) (oct : ℚ) : ℚ := h.pow 2.0 oct * MIDC_OFFSET

/-! ## Data model of `KGRAN~.c` -/

/-- The constant `MAXGRAINS`: the number of slots of the pool. -/
def MAXGRAINS : ℕ := 1000

/-- The record `Grain` of `KGRAN~.c`. -/
structure Grain where
  waveSampInc : ℚ
  ampSampInc : ℚ
  ampPhase : ℚ
  endTime : ℤ
  panR : ℚ
  panL : ℚ
  currTime : ℤ
  isplaying : Bool
  deriving DecidableEq

/-- The record `t_kgran`, without the handles of the host (`w_obj`, `w_buf`,
`w_env`, `w_name`, `w_envname`).  `grains` is the array `grains[MAXGRAINS]`,
slot 0 first. -/
structure t_kgran where
  running : Bool
  w_buffer_modified : Bool
  grains : List Grain
  w_len : ℤ
  w_envlen : ℤ
  transLow : ℚ
  transMid : ℚ
  transHigh : ℚ
  transTight : ℚ
  grainDurLow : ℚ
  grainDurMid : ℚ
  grainDurHigh : ℚ
  grainDurTight : ℚ
  grainHeadLow : ℚ
  grainHeadMid : ℚ
  grainHeadHigh : ℚ
  grainHeadTight : ℚ
  panLow : ℚ
  panMid : ℚ
  panHigh : ℚ
  panTight : ℚ
  grainRateVarLow : ℚ
  grainRateVarMid : ℚ
  grainRateVarHigh : ℚ
  grainRateVarTight : ℚ
  newGrainCounter : ℤ
  grainRate : ℚ
  oneover_cpsoct10 : ℚ
  w_connected : ℤ

/-! ## Parameter messages of `KGRAN~.c`

`kgran_freq` is left out: it writes `freqLow` ... `freqTight`, which are not
members of `t_kgran` (the transposition members are `transLow` ... `transTight`,
and no message writes them). -/

/-- The message `grainrate`. -/
def kgran_grainrate (x : t_kgran) (rl rm rh rt : ℚ) : t_kgran :=
  { x with
    grainRateVarLow := rl
    grainRateVarMid := max rm rl
    grainRateVarHigh := max rh rm
    grainRateVarTight := rt }

/-- The message `graindur`. -/
def kgran_graindur (x : t_kgran) (dl dm dh dt : ℚ) : t_kgran :=
  { x with
    grainDurLow := dl
    grainDurMid := max dm dl
    grainDurHigh := max dh dm
    grainDurTight := dt }

/-- The message `grainhead`. -/
def kgran_grainhead (x : t_kgran) (hl hm hh ht : ℚ) : t_kgran :=
  { x with
    grainHeadLow := max 0 hl
    grainHeadMid := max hm hl
    grainHeadHigh := min (max hh hm) 1
    grainHeadTight := ht }

/-- The message `pan`. -/
def kgran_pan (x : t_kgran) (pl pm ph pt : ℚ) : t_kgran :=
  { x with
    panLow := max 0 pl
    panMid := max pm pl
    panHigh := min (max ph pm) 1
    panTight := pt }

/-! ## Re-arming the countdown -/

/-- The function `kgran_reset_grain_rate`: the new countdown and the values of
`rand()` left. -/
def kgran_reset_grain_rate (h : Host) (x : t_kgran) (rs : List ℕ) :
    Option (t_kgran × List ℕ) :=
  match prob h x.grainRateVarLow x.grainRateVarMid x.grainDurHigh x.grainDurTight rs with
  | none => none
  | some (v, rest) => some ({ x with newGrainCounter := cRound (h.sr * v) }, rest)

/-! ## Spawning a grain

Where the source names a variable that is not in scope (`w->w_len`,
`oneover_cpsoct10`) the member of `x` of that name is meant. -/

/-- How a call of `kgran_new_grain` ended: `ignored` is the return after the
error message (line 378), `skipped` the return at `maxShift == minShift`
(line 398), `spawned` the end of the function. -/
inductive Spawn where
  | ignored
  | skipped
  | spawned
  deriving DecidableEq

/-- The locals of `kgran_new_grain` once the lines 357-372 have run. -/
structure GrainDraw where
  head : ℤ
  idealShift : ℤ
  increment : ℚ
  offset : ℚ
  grainDurSamps : ℚ
  sampOffset : ℤ

/-- The lines 357-372 of `kgran_new_grain`: three draws of `prob` (head shift,
transposition, duration) and the values derived from them. -/
def kgran_grain_draw (h : Host) (x : t_kgran) (sync : ℚ) (rs : List ℕ) :
    Option (GrainDraw × List ℕ) :=
  let sr : ℤ := cTrunc h.sr
  let head : ℤ := cFloor (sync * x.w_len)
  match prob h x.grainHeadLow x.grainHeadMid x.grainHeadHigh x.grainHeadTight rs with
  | none => none
  | some (floatShift, rs1) =>
    let idealShift : ℤ := cFloor (floatShift * x.w_len)
    match prob h x.transLow x.transMid x.transHigh x.transTight rs1 with
    | none => none
    | some (transv, rs2) =>
      let increment : ℚ := cpsoct h (10.0 + transv) * x.oneover_cpsoct10
      let offset : ℚ := if x.w_connected ≠ 0 then increment - 1 else increment
      match prob h x.grainDurLow x.grainDurMid x.grainDurHigh x.grainDurTight rs2 with
      | none => none
      | some (dur, rs3) =>
        let grainDurSamps : ℚ := dur * sr
        let sampOffset : ℤ := cRound (cAbs (grainDurSamps * offset))
        some ({ head := head, idealShift := idealShift, increment := increment,
                offset := offset, grainDurSamps := grainDurSamps,
                sampOffset := sampOffset }, rs3)

/-- The local `minShift` of `kgran_new_grain` (lines 385-394). -/
def GrainDraw.minShift (d : GrainDraw) : ℤ :=
  if d.offset > 0 then d.sampOffset else 1

/-- The local `maxShift` of `kgran_new_grain` (lines 385-394). -/
def GrainDraw.maxShift (d : GrainDraw) (x : t_kgran) : ℤ :=
  if d.offset > 0 then x.w_len else x.w_len - d.sampOffset

/-- The start time line 401 writes to `currTime`. -/
def GrainDraw.startTime (d : GrainDraw) (x : t_kgran) : ℤ :=
  cTrunc ((d.head : ℚ) + max (min (d.idealShift : ℚ) (d.maxShift x : ℚ)) (d.minShift : ℚ))

/-- The function `kgran_new_grain`: the slot after the call, how the call ended
and the values of `rand()` left. -/
def kgran_new_grain (h : Host) (x : t_kgran) (grain : Grain) (sync : ℚ) (rs : List ℕ) :
    Option (Grain × Spawn × List ℕ) :=
  match kgran_grain_draw h x sync rs with
  | none => none
  | some (d, rs3) =>
    if d.sampOffset ≥ x.w_len then some (grain, Spawn.ignored, rs3)
    else if d.maxShift x = d.minShift then some (grain, Spawn.skipped, rs3)
    else
      let currTime : ℤ := d.startTime x
      match prob h x.panLow x.panMid x.panHigh x.panTight rs3 with
      | none => none
      | some (panR, rs4) =>
        some ({ waveSampInc := d.increment
                ampSampInc := (x.w_envlen : ℚ) / d.grainDurSamps
                ampPhase := 0
                endTime := cTrunc (d.grainDurSamps * d.increment + (currTime : ℚ))
                panR := panR
                panL := 1 - panR
                currTime := currTime
                isplaying := true }, Spawn.spawned, rs4)

/-! ## Rendering -/

/-- The sample `farray[i]`; `none` when `i` is outside the table. -/
def readAt (farray : List ℚ) (i : ℤ) : Option ℚ :=
  if 0 ≤ i then farray[i.toNat]? else none

/-- The loop `while (*phs >= len) *phs -= len;` of `oscili`, run for at most
`fuel + 1` tests of its condition; `none` when it has not ended by then. -/
def oscili_wrap (len : ℚ) : ℕ → ℚ → Option ℚ
  | 0, phs => if phs ≥ len then none else some phs
  | fuel + 1, phs => if phs ≥ len then oscili_wrap len fuel (phs - len) else some phs

/-- A number of iterations within which the loop of `oscili` ends, if it ends at
all: with `len ≤ 0` it either does not start or never ends. -/
def oscili_fuel (len phs : ℚ) : ℕ := if 0 < len then ⌊phs / len⌋.toNat else 0

/-- The function `oscili`: the interpolated sample and the new value of `*phs`. -/
def oscili (amp si : ℚ) (farray : List ℚ) (len : ℤ) (phs : ℚ) : Option (ℚ × ℚ) :=
  let i : ℤ := cTrunc phs
  if len = 0 then none
  else
    let k : ℤ := (i + 1).tmod len
    let frac : ℚ := phs - i
    match oscili_wrap len (oscili_fuel len (phs + si)) (phs + si) with
    | none => none
    | some phs1 =>
      match readAt farray i, readAt farray k with
      | some fi, some fk => some ((fi + (fk - fi) * frac) * amp, phs1)
      | _, _ => none

/-- The lines 454-468 of `kgran_perform64` for one slot: the slot afterwards
and what is added to `*l_out` and to `*r_out`.  `b` is the locked source table,
`e` the locked envelope table (`none` for a null pointer). -/
def kgran_render (x : t_kgran) (b : List ℚ) (e : Option (List ℚ)) (head : ℚ)
    (g : Grain) : Option (Grain × ℚ × ℚ) :=
  if g.isplaying then
    let g1 : Grain := { g with currTime := g.currTime + 1 }
    if g1.currTime > g1.endTime then some ({ g1 with isplaying := false }, 0, 0)
    else
      match e with
      | none => none
      | some es =>
        match oscili 1 g1.ampSampInc es x.w_envlen g1.ampPhase, readAt b (cFloor head) with
        | some (grainAmp, phs), some s =>
          let grainOut : ℚ := grainAmp * s
          let g2 : Grain :=
            { g1 with
              ampPhase := phs
              currTime := cTrunc ((g1.currTime : ℚ) + g1.waveSampInc) }
          some (g2, grainOut * g2.panL, grainOut * g2.panR)
        | _, _ => none
  else some (g, 0, 0)

/-- The state after one slot of the scan. -/
structure Slotted where
  x : t_kgran
  grain : Grain
  lo : ℚ
  ro : ℚ
  /-- How the call of `kgran_new_grain` at this slot ended, if there was one. -/
  call : Option Spawn
  rand : List ℕ

/-- The body of the loop over the slots (lines 453-479).  `lo` and `ro` are the
values of `*l_out` and `*r_out`.  The call at line 475 gives no third argument;
the model passes the head position of the frame as `sync`. -/
def kgran_slot (h : Host) (b : List ℚ) (e : Option (List ℚ)) (head : ℚ)
    (x : t_kgran) (g : Grain) (lo ro : ℚ) (rs : List ℕ) : Option Slotted :=
  match kgran_render x b e head g with
  | none => none
  | some (g1, dl, dr) =>
    if x.newGrainCounter ≤ 0 ∧ g1.isplaying = false then
      match kgran_reset_grain_rate h x rs with
      | none => none
      | some (x1, rs1) =>
        if x1.newGrainCounter > 0 then
          match kgran_new_grain h x1 g1 head rs1 with
          | none => none
          | some (g2, out, rs2) =>
            some { x := x1, grain := g2, lo := lo + dl, ro := ro + dr,
                   call := some out, rand := rs2 }
        else
          some { x := { x1 with newGrainCounter := 1 }, grain := g1, lo := lo + dl,
                 ro := ro + dr, call := none, rand := rs1 }
    else
      some { x := x, grain := g1, lo := lo + dl, ro := ro + dr, call := none, rand := rs }

/-- The state after the scan of a list of slots. -/
structure Scanned where
  x : t_kgran
  grains : List Grain
  lo : ℚ
  ro : ℚ
  /-- The calls of `kgran_new_grain` made, in order, each with how it ended. -/
  log : List Spawn
  rand : List ℕ

/-- The loop `for (j = 0; j < MAXGRAINS; j++)` over the slots, in order. -/
def kgran_scan (h : Host) (b : List ℚ) (e : Option (List ℚ)) (head : ℚ) :
    t_kgran → List Grain → ℚ → ℚ → List ℕ → Option Scanned
  | x, [], lo, ro, rs => some { x := x, grains := [], lo := lo, ro := ro, log := [], rand := rs }
  | x, g :: gs, lo, ro, rs =>
    match kgran_slot h b e head x g lo ro rs with
    | none => none
    | some s =>
      match kgran_scan h b e head s.x gs s.lo s.ro s.rand with
      | none => none
      | some t =>
        some { x := t.x, grains := s.grain :: t.grains, lo := t.lo, ro := t.ro,
               log := s.call.toList ++ t.log, rand := t.rand }

/-- The state of `kgran_perform64` between two sample frames, and at its end. -/
structure Rendered where
  x : t_kgran
  head : ℚ
  r_out : ℕ → ℚ
  l_out : ℕ → ℚ
  /-- The calls of `kgran_new_grain` made, in order, each with how it ended. -/
  log : List Spawn
  rand : List ℕ

/-- One sample frame: the body of `while (n--)` (lines 449-482) at frame `i`.
`inp`, `r_out` and `l_out` are the signal vectors, indexed by frame. -/
def kgran_frame (h : Host) (b : List ℚ) (e : Option (List ℚ)) (inp : ℕ → ℚ) (i : ℕ)
    (x : t_kgran) (head : ℚ) (r_out l_out : ℕ → ℚ) (rs : List ℕ) : Option Rendered :=
  let head1 : ℚ := if x.w_connected ≠ 0 then inp i else head
  match kgran_scan h b e head1 x x.grains (l_out i) (r_out i) rs with
  | none => none
  | some t =>
    some { x := { t.x with grains := t.grains }, head := head1,
           r_out := Function.update r_out i t.ro, l_out := Function.update l_out i t.lo,
           log := t.log, rand := t.rand }

/-- The loop `while (n--)` of the render path: `n` frames from frame `i` on. -/
def kgran_frames (h : Host) (b : List ℚ) (e : Option (List ℚ)) (inp : ℕ → ℚ) :
    ℕ → ℕ → t_kgran → ℚ → (ℕ → ℚ) → (ℕ → ℚ) → List ℕ → Option Rendered
  | 0, _, x, head, r_out, l_out, rs =>
    some { x := x, head := head, r_out := r_out, l_out := l_out, log := [], rand := rs }
  | n + 1, i, x, head, r_out, l_out, rs =>
    match kgran_frame h b e inp i x head r_out l_out rs with
    | none => none
    | some f =>
      match kgran_frames h b e inp n (i + 1) f.x f.head f.r_out f.l_out f.rand with
      | none => none
      | some t => some { t with log := f.log ++ t.log }

/-- The loop at the label `zero`: `n` frames of silence from frame `i` on. -/
def kgran_zero : ℕ → ℕ → (ℕ → ℚ) → (ℕ → ℚ) → (ℕ → ℚ) × (ℕ → ℚ)
  | 0, _, r_out, l_out => (r_out, l_out)
  | n + 1, i, r_out, l_out =>
    kgran_zero n (i + 1) (Function.update r_out i 0) (Function.update l_out i 0)

/-- The function `kgran_perform64` on a block of `sampleframes` frames.  `b` and
`e` are what `buffer_locksamples` returned for the source and for the envelope
(`none` for a null pointer). -/
def kgran_perform64 (h : Host) (x : t_kgran) (b e : Option (List ℚ)) (inp : ℕ → ℚ)
    (r_out l_out : ℕ → ℚ) (sampleframes : ℕ) (rs : List ℕ) : Option Rendered :=
  let zero : Option Rendered :=
    some { x := x, head := 0, r_out := (kgran_zero sampleframes 0 r_out l_out).1,
           l_out := (kgran_zero sampleframes 0 r_out l_out).2, log := [], rand := rs }
  match b with
  | none => zero
  | some bs =>
    if x.w_buffer_modified then zero
    else
      match kgran_frames h bs e inp sampleframes 0 x 0 r_out l_out rs with
      | none => none
      | some t =>
        let rearmed : Option (t_kgran × List ℕ) :=
          if t.x.newGrainCounter ≤ 0 then kgran_reset_grain_rate h t.x t.rand
          else some (t.x, t.rand)
        match rearmed with
        | none => none
        | some (x2, rs2) =>
          some { t with x := { x2 with newGrainCounter := x2.newGrainCounter - 1 },
                        rand := rs2 }

/-- The number of slots that are free in the first pool and playing in the
second, slot by slot. -/
def activated : List Grain → List Grain → ℕ
  | g :: gs, g1 :: gs1 =>
    (if g.isplaying = false ∧ g1.isplaying = true then 1 else 0) + activated gs gs1
  | _, _ => 0

/-! ## Construction -/

/-- The value every slot of the pool gets in `kgran_new`. -/
def idleGrain : Grain :=
  { waveSampInc := 0, ampSampInc := 0, ampPhase := 0, endTime := 0, panR := 0, panL := 0,
    currTime := 0, isplaying := false }

/-- The function `kgran_new` for a source buffer of `w_len` frames and an
envelope buffer of `w_envlen` frames.  The fields it does not write are as
`object_alloc` hands them over, taken to be zero. -/
def kgran_new (h : Host) (w_len w_envlen : ℤ) : t_kgran :=
  { running := false
    w_buffer_modified := false
    grains := List.replicate MAXGRAINS idleGrain
    w_len := w_len
    w_envlen := w_envlen
    transLow := 0, transMid := 0, transHigh := 0, transTight := 0
    grainDurLow := 0, grainDurMid := 0, grainDurHigh := 0, grainDurTight := 0
    grainHeadLow := 0, grainHeadMid := 0, grainHeadHigh := 0, grainHeadTight := 0
    panLow := 0, panMid := 0, panHigh := 0, panTight := 0
    grainRateVarLow := 0, grainRateVarMid := 0, grainRateVarHigh := 0, grainRateVarTight := 0
    newGrainCounter := 0
    grainRate := 0
    oneover_cpsoct10 := 1.0 / cpsoct h 10.0
    w_connected := 0 }

end KGran

/-! ## The parameter messages and the re-arm of `SGRAN~.c` -/

namespace SGran

/-- The distributions and the countdown of the record `t_sgran`. -/
structure t_sgran where
  freqLow : ℚ
  freqMid : ℚ
  freqHigh : ℚ
  freqTight : ℚ
  grainDurLow : ℚ
  grainDurMid : ℚ
  grainDurHigh : ℚ
  grainDurTight : ℚ
  panLow : ℚ
  panMid : ℚ
  panHigh : ℚ
  panTight : ℚ
  grainRateVarLow : ℚ
  grainRateVarMid : ℚ
  grainRateVarHigh : ℚ
  grainRateVarTight : ℚ
  newGrainCounter : ℤ

/-- The message `grainrate`. -/
def sgran_grainrate (x : t_sgran) (rl rm rh rt : ℚ) : t_sgran :=
  { x with
    grainRateVarLow := rl
    grainRateVarMid := max rm rl
    grainRateVarHigh := max rh rm
    grainRateVarTight := rt }

/-- The message `graindur`. -/
def sgran_graindur (x : t_sgran) (dl dm dh dt : ℚ) : t_sgran :=
  { x with
    grainDurLow := dl
    grainDurMid := max dm dl
    grainDurHigh := max dh dm
    grainDurTight := dt }

/-- The message `freq`. -/
def sgran_freq (x : t_sgran) (fl fm fh ft : ℚ) : t_sgran :=
  { x with
    freqLow := fl
    freqMid := max fm fl
    freqHigh := max fh fm
    freqTight := ft }

/-- The message `pan`. -/
def sgran_pan (x : t_sgran) (pl pm ph pt : ℚ) : t_sgran :=
  { x with
    panLow := pl
    panMid := max pm pl
    panHigh := max ph pm
    panTight := pt }

/-- The function `reset_grain_rate`. -/
def reset_grain_rate (h : KGran.Host) (x : t_sgran) (rs : List ℕ) :
    Option (t_sgran × List ℕ) :=
  match KGran.prob h x.grainRateVarLow x.grainRateVarMid x.grainDurHigh x.grainDurTight rs with
  | none => none
  | some (v, rest) => some ({ x with newGrainCounter := KGran.cRound (h.sr * v) }, rest)

end SGran

/-! ## Observation of the life of a grain -/

namespace KGran

/-- The number of sample frames in which the grain of one slot is rendered
(lines 462-466 of `kgran_perform64`) before line 458 deactivates it, together
with the slot as the deactivating frame leaves it.  The head position is held
at `head`.  `fuel` bounds the number of frames looked at: `none` when the grain
still plays after them, or when rendering is undefined. -/
def kgran_life (x : t_kgran) (b : List ℚ) (e : Option (List ℚ)) (head : ℚ) :
    ℕ → Grain → Option (ℕ × Grain)
  | 0, _ => none
  | fuel + 1, g =>
    match kgran_render x b e head g with
    | none => none
    | some (g1, _, _) =>
      if g1.isplaying then
        (kgran_life x b e head fuel g1).map (fun p => (p.1 + 1, p.2))
      else some (0, g1)

end KGran

/-! ## `prob` and the writes of `kgran_new_grain` in the arithmetic of the machine

The definitions above compute with exact rationals and unbounded integers.
Here `double` is IEEE binary64 and `float` binary32, with NaN, the infinities,
rounding to nearest (ties to even), overflow to an infinity, and `int` has 32
bits.  The claims that depend on these (what `prob` returns, whether it
returns, the end time of a spawned grain) are settled on this layer.  The two
zeros of IEEE arithmetic are one value here. -/

namespace KGran.Ieee

/-- The values of a C `double` or `float`: NaN, the two infinities and the
finite values. -/
inductive Dbl where
  | nan
  | ninf
  | fin (q : ℚ)
  | pinf
  deriving DecidableEq

/-- Rounding to the nearest integer, a tie going to the even one. -/
def roundHalfEven (x : ℚ) : ℤ :=
  if x - ⌊x⌋ < 1 / 2 then ⌊x⌋
  else if 1 / 2 < x - ⌊x⌋ then ⌊x⌋ + 1
  else if ⌊x⌋ % 2 = 0 then ⌊x⌋ else ⌊x⌋ + 1

/-- Rounding of the exact value `q` to the binary format of precision `p` bits
whose least normal exponent is `emin` and whose values are below `2 ^ emax`:
to nearest, ties to even, with gradual underflow and overflow to an infinity. -/
def roundTo (p : ℕ) (emin emax : ℤ) (q : ℚ) : Dbl :=
  if q = 0 then Dbl.fin 0
  else
    let e : ℤ := max (Int.log 2 |q|) emin
    let ulp : ℚ := 2 ^ (e - p + 1)
    let r : ℚ := roundHalfEven (q / ulp) * ulp
    if |r| < 2 ^ emax then Dbl.fin r else if q < 0 then Dbl.ninf else Dbl.pinf

/-- Rounding to binary64, the format of `double`. -/
def round64 (q : ℚ) : Dbl := roundTo 53 (-1022) 1024 q

/-- Rounding to binary32, the format of `float`. -/
def round32 (q : ℚ) : Dbl := roundTo 24 (-126) 128 q

/-- The comparison `a < b` of C: false as soon as one side is a NaN. -/
def Dbl.lt : Dbl → Dbl → Bool
  | Dbl.fin a, Dbl.fin b => decide (a < b)
  | Dbl.ninf, Dbl.fin _ => true
  | Dbl.ninf, Dbl.pinf => true
  | Dbl.fin _, Dbl.pinf => true
  | _, _ => false

/-- The comparison `a <= b` of C: false as soon as one side is a NaN. -/
def Dbl.le : Dbl → Dbl → Bool
  | Dbl.fin a, Dbl.fin b => decide (a ≤ b)
  | Dbl.ninf, Dbl.nan => false
  | Dbl.ninf, _ => true
  | Dbl.fin _, Dbl.pinf => true
  | Dbl.pinf, Dbl.pinf => true
  | _, _ => false

/-- Addition, rounded by `rnd`. -/
def Dbl.add (rnd : ℚ → Dbl) : Dbl → Dbl → Dbl
  | Dbl.fin a, Dbl.fin b => rnd (a + b)
  | Dbl.nan, _ => Dbl.nan
  | _, Dbl.nan => Dbl.nan
  | Dbl.pinf, Dbl.ninf => Dbl.nan
  | Dbl.ninf, Dbl.pinf => Dbl.nan
  | Dbl.pinf, _ => Dbl.pinf
  | _, Dbl.pinf => Dbl.pinf
  | Dbl.ninf, _ => Dbl.ninf
  | _, Dbl.ninf => Dbl.ninf

/-- Subtraction, rounded by `rnd`. -/
def Dbl.sub (rnd : ℚ → Dbl) : Dbl → Dbl → Dbl
  | Dbl.fin a, Dbl.fin b => rnd (a - b)
  | Dbl.nan, _ => Dbl.nan
  | _, Dbl.nan => Dbl.nan
  | Dbl.pinf, Dbl.pinf => Dbl.nan
  | Dbl.ninf, Dbl.ninf => Dbl.nan
  | Dbl.pinf, _ => Dbl.pinf
  | _, Dbl.ninf => Dbl.pinf
  | Dbl.ninf, _ => Dbl.ninf
  | _, Dbl.pinf => Dbl.ninf

/-- The infinity of the sign of `a * b`, for `a` infinite of sign `neg` and `b`
finite; NaN when `b` is zero. -/
def Dbl.infTimes (neg : Bool) (b : ℚ) : Dbl :=
  if b = 0 then Dbl.nan
  else if decide (0 < b) = neg then Dbl.ninf else Dbl.pinf

/-- Multiplication, rounded by `rnd`. -/
def Dbl.mul (rnd : ℚ → Dbl) : Dbl → Dbl → Dbl
  | Dbl.fin a, Dbl.fin b => rnd (a * b)
  | Dbl.nan, _ => Dbl.nan
  | _, Dbl.nan => Dbl.nan
  | Dbl.pinf, Dbl.fin b => Dbl.infTimes false b
  | Dbl.ninf, Dbl.fin b => Dbl.infTimes true b
  | Dbl.fin a, Dbl.pinf => Dbl.infTimes false a
  | Dbl.fin a, Dbl.ninf => Dbl.infTimes true a
  | Dbl.pinf, Dbl.pinf => Dbl.pinf
  | Dbl.ninf, Dbl.ninf => Dbl.pinf
  | Dbl.pinf, Dbl.ninf => Dbl.ninf
  | Dbl.ninf, Dbl.pinf => Dbl.ninf

/-- Division, rounded by `rnd`.  A zero divisor is taken as `+0`. -/
def Dbl.div (rnd : ℚ → Dbl) : Dbl → Dbl → Dbl
  | Dbl.fin a, Dbl.fin b =>
    if b = 0 then (if a = 0 then Dbl.nan else if 0 < a then Dbl.pinf else Dbl.ninf)
    else rnd (a / b)
  | Dbl.nan, _ => Dbl.nan
  | _, Dbl.nan => Dbl.nan
  | Dbl.fin _, _ => Dbl.fin 0
  | Dbl.pinf, Dbl.fin b => if 0 ≤ b then Dbl.pinf else Dbl.ninf
  | Dbl.ninf, Dbl.fin b => if 0 ≤ b then Dbl.ninf else Dbl.pinf
  | _, _ => Dbl.nan

/-- What the C library supplies to `prob`. -/
structure Libm where
  /-- The function `pow` of `math.h`. -/
  pow : Dbl → Dbl → Dbl
  /-- The constant `RAND_MAX` of `stdlib.h`. -/
  RAND_MAX : ℕ

/-- The function `rrand`, applied to the value `r` that `rand()` returned. -/
def rrand (h : Libm) (r : ℕ) : Dbl :=
  let min : Dbl := Dbl.fin (-1)
  let max : Dbl := Dbl.fin 1
  let range := Dbl.sub round64 max min
  let div := Dbl.div round64 (round64 h.RAND_MAX) range
  Dbl.add round64 min (Dbl.div round64 (round64 r) div)

/-- The base `(rrand()+1.)*.5` that `prob` hands to `pow`, from the value `r2`
of `rand()`. -/
def prob_base (h : Libm) (r2 : ℕ) : Dbl :=
  Dbl.mul round64 (Dbl.add round64 (rrand h r2) (Dbl.fin 1)) (Dbl.fin (1 / 2))

/-- The candidate `num` one iteration of the loop of `prob` computes from the
two values `r1`, `r2` of `rand()` it takes. -/
def prob_num (h : Libm) (mid tight range : Dbl) (r1 r2 : ℕ) : Dbl :=
  let sign : Dbl := if Dbl.lt (Dbl.fin 0) (rrand h r1) then Dbl.fin 1 else Dbl.fin (-1)
  Dbl.add round64 mid
    (Dbl.mul round64 sign (Dbl.mul round64 (h.pow (prob_base h r2) tight) range))

/-- The `do ... while` loop of `prob`. -/
def prob_loop (h : Libm) (low mid high tight range : Dbl) : List ℕ → Option (Dbl × List ℕ)
  | r1 :: r2 :: rest =>
    let num := prob_num h mid tight range r1 r2
    if Dbl.lt num low || Dbl.lt high num then prob_loop h low mid high tight range rest
    else some (num, rest)
  | _ => none

/-- The function `prob`. -/
def prob (h : Libm) (low mid high tight : Dbl) (rs : List ℕ) : Option (Dbl × List ℕ) :=
  let range :=
    if Dbl.lt (Dbl.sub round64 mid low) (Dbl.sub round64 high mid) then Dbl.sub round64 high mid
    else Dbl.sub round64 mid low
  prob_loop h low mid high tight range rs

/-- The values of `pow` that C11 F.10.4.4 fixes and the evaluations below call:
`pow(x, ±0)` is 1 and `pow(1, y)` is 1 for every `x`, `y`, NaN included;
`pow(+0, y)` is `+∞` for `y < 0` and `+0` for `y > 0`; and `pow(x, 1)` is `x`.
At the other arguments, where the value depends on the rounding of the
library, this instance gives NaN; no theorem evaluates it there. -/
def powStd (x t : Dbl) : Dbl :=
  if t = Dbl.fin 0 then Dbl.fin 1
  else if x = Dbl.fin 1 then Dbl.fin 1
  else if x = Dbl.fin 0 then
    (if Dbl.lt t (Dbl.fin 0) then Dbl.pinf else if Dbl.lt (Dbl.fin 0) t then Dbl.fin 0
     else Dbl.nan)
  else if t = Dbl.fin 1 then x
  else Dbl.nan

/-- The C library with a 31 bit `rand()`. -/
def libm31 : Libm := { pow := powStd, RAND_MAX := 2147483647 }

/-- The `double` nearest to 0.1. -/
def tenth : Dbl := Dbl.fin (3602879701896397 / 36028797018963968)

/-! ### The writes of `kgran_new_grain` -/

/-- Conversion of a floating value to `int`: truncation toward zero; `none`
where C leaves the conversion undefined (NaN, an infinity, a value outside the
range of a 32 bit `int`). -/
def cInt : Dbl → Option ℤ
  | Dbl.fin q =>
    if -2147483648 ≤ cTrunc q ∧ cTrunc q ≤ 2147483647 then some (cTrunc q) else none
  | _ => none

/-- The function `fmax` of `math.h`: a NaN argument gives the other argument. -/
def Dbl.fmax (a b : Dbl) : Dbl :=
  if a = Dbl.nan then b else if b = Dbl.nan then a else if Dbl.lt a b then b else a

/-- The function `fmin` of `math.h`: a NaN argument gives the other argument. -/
def Dbl.fmin (a b : Dbl) : Dbl :=
  if a = Dbl.nan then b else if b = Dbl.nan then a else if Dbl.lt b a then b else a

/-- The record `Grain` of `KGRAN~.c` with its `float` members as they are in
the machine. -/
structure Grain where
  waveSampInc : Dbl
  ampSampInc : Dbl
  ampPhase : Dbl
  endTime : ℤ
  panR : Dbl
  panL : Dbl
  currTime : ℤ
  isplaying : Bool

/-- The lines 401-416 of `kgran_new_grain`, the writes to the slot, from the
values of the locals and of `x->w_envlen`: `head`, `idealShift`, `minShift`,
`maxShift` are `int`, `increment`, `grainDurSamps`, `panR` are `float`.  Line
401 is computed in `double`, the lines 409, 415 and 416 in `float`. -/
def kgran_new_grain_write (w_envlen head idealShift minShift maxShift : ℤ)
    (increment grainDurSamps panR : Dbl) : Option Grain :=
  match cInt (Dbl.add round64 (round64 head)
      (Dbl.fmax (Dbl.fmin (round64 idealShift) (round64 maxShift)) (round64 minShift))) with
  | none => none
  | some currTime =>
    match cInt (Dbl.add round32 (Dbl.mul round32 grainDurSamps increment) (round32 currTime)) with
    | none => none
    | some endTime =>
      some { waveSampInc := increment
             ampSampInc := Dbl.div round32 (round32 w_envlen) grainDurSamps
             ampPhase := Dbl.fin 0
             endTime := endTime
             panR := panR
             panL := Dbl.sub round32 (Dbl.fin 1) panR
             currTime := currTime
             isplaying := true }

/-- The slot `kgran_new_grain_write` fills for a grain of one sample at
increment 1 that starts at 16777217: a `float` does not hold that start time. -/
def lateGrain : Grain :=
  { waveSampInc := Dbl.fin 1, ampSampInc := Dbl.fin 512, ampPhase := Dbl.fin 0,
    endTime := 16777216, panR := Dbl.fin 0, panL := Dbl.fin 1, currTime := 16777217,
    isplaying := true }

end KGran.Ieee

/-! ## Concrete states used below -/

namespace KGran

/-- The object after `kgran_new` on a source of 1000 frames and an envelope of
512 frames, at 44100 Hz. -/
def fresh : t_kgran := kgran_new host44100 1000 512

/-- The object `fresh` after the messages `grainrate 0.1 0.1 0.1 1` and
`graindur 0.1 0.2 0.5 1`. -/
def rateTenth : t_kgran :=
  kgran_graindur (kgran_grainrate fresh 0.1 0.1 0.1 1) 0.1 0.2 0.5 1

/-- The object `fresh` with 100 on the countdown: every slot is free. -/
def idleAt100 : t_kgran := { fresh with newGrainCounter := 100 }

/-- The object `fresh` after the messages `grainrate 0.1 0.1 0.1 1` and
`graindur 0.01 0.01 0.1 1`: the countdown is 0, every slot is free. -/
def expired : t_kgran :=
  kgran_graindur (kgran_grainrate fresh 0.1 0.1 0.1 1) 0.01 0.01 0.1 1

/-- The object `expired` once re-armed. -/
def rearmed : t_kgran := { expired with newGrainCounter := 4410 }

/-- The grain `kgran_new_grain` writes on `rearmed` when `rand()` returns 0
throughout: 441 samples long, starting at 441. -/
def spawnedGrain : Grain :=
  { waveSampInc := 1, ampSampInc := 512 / 441, ampPhase := 0, endTime := 882, panR := 0,
    panL := 1, currTime := 441, isplaying := true }

/-- The state after the frame rendered on `expired` when `rand()` returns 0
throughout: slot 0 plays `spawnedGrain`, the countdown is re-armed. -/
def expiredFrame : Rendered :=
  { x := { rearmed with grains := spawnedGrain :: List.replicate 999 idleGrain }
    head := 0
    r_out := fun _ => 0
    l_out := fun _ => 0
    log := [Spawn.spawned]
    rand := [] }

/-- A source table of 1000 frames of silence. -/
def silentSource : List ℚ := List.replicate 1000 0

/-- An envelope table of 512 frames, all 1. -/
def flatEnvelope : List ℚ := List.replicate 512 1

/-- The signal vector that is 0 at every frame. -/
def zeroSignal : ℕ → ℚ := fun _ => 0

end KGran

/-! # Theorems -/

namespace KGran

/-! ## Evaluations of `rrand` and of the host -/

/-- Evaluation of `rrand` at the largest value of `rand()`. -/
theorem rrand_max : rrand host44100 2147483647 = 1 := by
  norm_num [rrand, host44100]

/-- Evaluation of `rrand` at the smallest value of `rand()`. -/
theorem rrand_zero : rrand host44100 0 = -1 := by
  norm_num [rrand, host44100]

theorem host44100_pow (x t : ℚ) : host44100.pow x t = x ^ ⌊t⌋ := rfl

theorem host44100_sr : host44100.sr = 44100 := rfl

/-! ## Claims on the parameter messages -/

/-- C2, at the failing input `grainrate 5 1 2 1`: the stored distribution is
`low = 5`, `mid = 5`, `high = 2`, so `mid ≤ high` does not hold; the same for
`sgran_grainrate`. -/
theorem grainrate_unordered :
    (kgran_grainrate fresh 5 1 2 1).grainRateVarLow = 5 ∧
      (kgran_grainrate fresh 5 1 2 1).grainRateVarMid = 5 ∧
      (kgran_grainrate fresh 5 1 2 1).grainRateVarHigh = 2 ∧
      ¬ ((kgran_grainrate fresh 5 1 2 1).grainRateVarMid ≤
          (kgran_grainrate fresh 5 1 2 1).grainRateVarHigh) ∧
      ∀ y : SGran.t_sgran, ¬ ((SGran.sgran_grainrate y 5 1 2 1).grainRateVarMid ≤
          (SGran.sgran_grainrate y 5 1 2 1).grainRateVarHigh) := by
  refine ⟨by simp [kgran_grainrate], by norm_num [kgran_grainrate],
    by norm_num [kgran_grainrate], by norm_num [kgran_grainrate], fun y => ?_⟩
  norm_num [SGran.sgran_grainrate]

/-! ## Claims on the re-arm -/

/-- C3, at the failing input: the grain-rate distribution is `0.1 0.1 0.1`, the
sampling rate 44100, and the countdown after the re-arm is 22050, not 4410,
because the upper bound and the tightness are read from the duration
distribution (`graindur 0.1 0.2 0.5 1`). -/
theorem reset_grain_rate_reads_duration :
    rateTenth.grainRateVarLow = 0.1 ∧ rateTenth.grainRateVarMid = 0.1 ∧
      rateTenth.grainRateVarHigh = 0.1 ∧
      (kgran_reset_grain_rate host44100 rateTenth [2147483647, 2147483647]).map
        (fun p => p.1.newGrainCounter) = some 22050 := by
  refine ⟨by simp [rateTenth, kgran_graindur, kgran_grainrate],
    by norm_num [rateTenth, kgran_graindur, kgran_grainrate],
    by norm_num [rateTenth, kgran_graindur, kgran_grainrate], ?_⟩
  norm_num [kgran_reset_grain_rate, rateTenth, kgran_graindur, kgran_grainrate, prob,
    prob_loop, prob_num, rrand_max, host44100_pow, host44100_sr, cRound]

/-! ## The loop of `oscili` -/

theorem oscili_wrap_some (len : ℚ) :
    ∀ (fuel : ℕ) (phs : ℚ), phs < len * ((fuel : ℚ) + 1) →
      (oscili_wrap len fuel phs).isSome = true
  | 0, phs, hphs => by
    have hlt : ¬ (phs ≥ len) := by
      simp only [Nat.cast_zero, zero_add, mul_one] at hphs
      exact not_le.mpr hphs
    simp [oscili_wrap, hlt]
  | fuel + 1, phs, hphs => by
    rw [oscili_wrap]
    split
    · apply oscili_wrap_some len fuel (phs - len)
      push_cast at hphs
      linarith
    · rfl

/-- On a table of positive length the loop of `oscili` ends within
`oscili_fuel` iterations: the fuel the model gives it is enough. -/
theorem oscili_wrap_fuel (len phs : ℚ) (hlen : 0 < len) :
    (oscili_wrap len (oscili_fuel len phs) phs).isSome = true := by
  apply oscili_wrap_some
  have h1 : phs / len < (⌊phs / len⌋ : ℚ) + 1 := Int.lt_floor_add_one _
  have h2 : ((⌊phs / len⌋ : ℤ) : ℚ) ≤ ((⌊phs / len⌋.toNat : ℕ) : ℚ) := by
    have := Int.self_le_toNat ⌊phs / len⌋
    exact_mod_cast this
  have h3 : phs / len < ((oscili_fuel len phs : ℕ) : ℚ) + 1 := by
    simp only [oscili_fuel, hlen, if_true]
    linarith
  calc phs = phs / len * len := by field_simp
    _ < (((oscili_fuel len phs : ℕ) : ℚ) + 1) * len := by
        exact mul_lt_mul_of_pos_right h3 hlen
    _ = len * (((oscili_fuel len phs : ℕ) : ℚ) + 1) := by ring

/-- On a table of length zero or less the loop of `oscili`, once entered, never
ends: the model gives `none`. -/
theorem oscili_wrap_diverges (len phs : ℚ) (hlen : len ≤ 0) (hphs : phs ≥ len) :
    oscili_wrap len (oscili_fuel len phs) phs = none := by
  have hnot : ¬ (0 < len) := not_lt.mpr hlen
  simp [oscili_fuel, hnot, oscili_wrap, hphs]

/-! ## Lemmas on the scan of the pool -/

theorem kgran_render_idle (x : t_kgran) (b : List ℚ) (e : Option (List ℚ)) (head : ℚ)
    (g : Grain) (hg : g.isplaying = false) : kgran_render x b e head g = some (g, 0, 0) := by
  simp [kgran_render, hg]

/-- While the countdown is positive a slot is only rendered. -/
theorem kgran_slot_pos (h : Host) (b : List ℚ) (e : Option (List ℚ)) (head : ℚ)
    (x : t_kgran) (g : Grain) (lo ro : ℚ) (rs : List ℕ) (s : Slotted)
    (hpos : 0 < x.newGrainCounter) (hs : kgran_slot h b e head x g lo ro rs = some s) :
    s.x = x ∧ s.call = none ∧ s.rand = rs ∧
      (g.isplaying = false → s.grain = g ∧ s.lo = lo ∧ s.ro = ro) := by
  unfold kgran_slot at hs
  cases hr : kgran_render x b e head g with
  | none => simp [hr] at hs
  | some p =>
    obtain ⟨g1, dl, dr⟩ := p
    have hcond : ¬ (x.newGrainCounter ≤ 0 ∧ g1.isplaying = false) := fun hc => by omega
    simp only [hr, hcond, if_false, Option.some.injEq] at hs
    subst hs
    refine ⟨rfl, rfl, rfl, fun hg => ?_⟩
    rw [kgran_render_idle x b e head g hg] at hr
    simp only [Option.some.injEq, Prod.mk.injEq] at hr
    obtain ⟨h1, h2, h3⟩ := hr
    subst h1 h2 h3
    simp

/-- After a slot, either nothing happened to the countdown and no call was made,
or the countdown is positive. -/
theorem kgran_slot_counter (h : Host) (b : List ℚ) (e : Option (List ℚ)) (head : ℚ)
    (x : t_kgran) (g : Grain) (lo ro : ℚ) (rs : List ℕ) (s : Slotted)
    (hs : kgran_slot h b e head x g lo ro rs = some s) :
    (s.x = x ∧ s.call = none) ∨ 0 < s.x.newGrainCounter := by
  unfold kgran_slot at hs
  cases hr : kgran_render x b e head g with
  | none => simp [hr] at hs
  | some p =>
    obtain ⟨g1, dl, dr⟩ := p
    simp only [hr] at hs
    by_cases hcond : x.newGrainCounter ≤ 0 ∧ g1.isplaying = false
    · simp only [hcond, and_self, if_true] at hs
      cases hre : kgran_reset_grain_rate h x rs with
      | none => simp [hre] at hs
      | some q =>
        obtain ⟨x1, rs1⟩ := q
        simp only [hre] at hs
        by_cases hx1 : x1.newGrainCounter > 0
        · simp only [hx1, if_true] at hs
          cases hn : kgran_new_grain h x1 g1 head rs1 with
          | none => simp [hn] at hs
          | some w =>
            obtain ⟨g2, out, rs2⟩ := w
            simp only [hn, Option.some.injEq] at hs
            subst hs
            exact Or.inr hx1
        · simp only [hx1, if_false, Option.some.injEq] at hs
          subst hs
          exact Or.inr (by simp)
    · simp only [hcond, if_false, Option.some.injEq] at hs
      subst hs
      exact Or.inl ⟨rfl, rfl⟩

/-- A slot that is free before and playing after has been handed to
`kgran_new_grain`. -/
theorem kgran_slot_activated (h : Host) (b : List ℚ) (e : Option (List ℚ)) (head : ℚ)
    (x : t_kgran) (g : Grain) (lo ro : ℚ) (rs : List ℕ) (s : Slotted)
    (hs : kgran_slot h b e head x g lo ro rs = some s)
    (hg : g.isplaying = false) (hg1 : s.grain.isplaying = true) : s.call.toList.length = 1 := by
  unfold kgran_slot at hs
  rw [kgran_render_idle x b e head g hg] at hs
  simp only at hs
  by_cases hcond : x.newGrainCounter ≤ 0 ∧ g.isplaying = false
  · simp only [hcond, and_self, if_true] at hs
    cases hre : kgran_reset_grain_rate h x rs with
    | none => simp [hre] at hs
    | some q =>
      obtain ⟨x1, rs1⟩ := q
      simp only [hre] at hs
      by_cases hx1 : x1.newGrainCounter > 0
      · simp only [hx1, if_true] at hs
        cases hn : kgran_new_grain h x1 g head rs1 with
        | none => simp [hn] at hs
        | some w =>
          obtain ⟨g2, out, rs2⟩ := w
          simp only [hn, Option.some.injEq] at hs
          subst hs
          simp
      · simp only [hx1, if_false, Option.some.injEq] at hs
        subst hs
        simp [hg] at hg1
  · simp only [hcond, if_false, Option.some.injEq] at hs
    subst hs
    simp [hg] at hg1

/-- While the countdown is positive the scan makes no call, leaves the object
and the values of `rand()` alone, and no free slot starts to play. -/
theorem kgran_scan_pos (h : Host) (b : List ℚ) (e : Option (List ℚ)) (head : ℚ) :
    ∀ (gs : List Grain) (x : t_kgran) (lo ro : ℚ) (rs : List ℕ) (t : Scanned),
      0 < x.newGrainCounter → kgran_scan h b e head x gs lo ro rs = some t →
      t.x = x ∧ t.log = [] ∧ t.rand = rs ∧ activated gs t.grains = 0
  | [], x, lo, ro, rs, t, _, ht => by
    simp only [kgran_scan, Option.some.injEq] at ht
    subst ht
    simp [activated]
  | g :: gs, x, lo, ro, rs, t, hpos, ht => by
    rw [kgran_scan] at ht
    cases hs : kgran_slot h b e head x g lo ro rs with
    | none => simp [hs] at ht
    | some s =>
      simp only [hs] at ht
      obtain ⟨hx, hcall, hrand, hidle⟩ := kgran_slot_pos h b e head x g lo ro rs s hpos hs
      cases hrest : kgran_scan h b e head s.x gs s.lo s.ro s.rand with
      | none => simp [hrest] at ht
      | some t1 =>
        simp only [hrest, Option.some.injEq] at ht
        have hpos1 : 0 < s.x.newGrainCounter := by rw [hx]; exact hpos
        obtain ⟨h1, h2, h3, h4⟩ :=
          kgran_scan_pos h b e head gs s.x s.lo s.ro s.rand t1 hpos1 hrest
        subst ht
        refine ⟨by rw [h1, hx], by simp [h2, hcall], by rw [h3, hrand], ?_⟩
        simp only [activated, h4, add_zero, ite_eq_right_iff, one_ne_zero, imp_false, not_and]
        intro hg
        rw [(hidle hg).1, hg]
        simp

/-- One scan of the pool calls `kgran_new_grain` at most once, and a free slot
starts to play only through such a call. -/
theorem kgran_scan_once (h : Host) (b : List ℚ) (e : Option (List ℚ)) (head : ℚ) :
    ∀ (gs : List Grain) (x : t_kgran) (lo ro : ℚ) (rs : List ℕ) (t : Scanned),
      kgran_scan h b e head x gs lo ro rs = some t →
      t.log.length ≤ 1 ∧ activated gs t.grains ≤ t.log.length
  | [], x, lo, ro, rs, t, ht => by
    simp only [kgran_scan, Option.some.injEq] at ht
    subst ht
    simp [activated]
  | g :: gs, x, lo, ro, rs, t, ht => by
    rw [kgran_scan] at ht
    cases hs : kgran_slot h b e head x g lo ro rs with
    | none => simp [hs] at ht
    | some s =>
      simp only [hs] at ht
      cases hrest : kgran_scan h b e head s.x gs s.lo s.ro s.rand with
      | none => simp [hrest] at ht
      | some t1 =>
        simp only [hrest, Option.some.injEq] at ht
        subst ht
        have hhead : (if g.isplaying = false ∧ s.grain.isplaying = true then 1 else 0)
            ≤ s.call.toList.length := by
          by_cases hact : g.isplaying = false ∧ s.grain.isplaying = true
          · rw [if_pos hact, kgran_slot_activated h b e head x g lo ro rs s hs hact.1 hact.2]
          · rw [if_neg hact]
            exact Nat.zero_le _
        have hcall : s.call.toList.length ≤ 1 := by
          cases s.call <;> simp
        rcases kgran_slot_counter h b e head x g lo ro rs s hs with hsame | hpos
        · obtain ⟨h1, h2⟩ := kgran_scan_once h b e head gs s.x s.lo s.ro s.rand t1 hrest
          simp only [hsame.2, Option.toList_none, List.length_nil] at hhead
          simp only [activated, hsame.2, Option.toList_none, List.nil_append]
          omega
        · obtain ⟨_, h2, _, h4⟩ :=
            kgran_scan_pos h b e head gs s.x s.lo s.ro s.rand t1 hpos hrest
          simp only [activated, h2, List.append_nil, h4, add_zero]
          exact ⟨hcall, hhead⟩

/-- With a positive countdown the scan of a pool of free slots changes nothing. -/
theorem kgran_scan_idle (h : Host) (b : List ℚ) (e : Option (List ℚ)) (head : ℚ)
    (x : t_kgran) (lo ro : ℚ) (rs : List ℕ) (hpos : 0 < x.newGrainCounter) :
    ∀ (gs : List Grain), (∀ g ∈ gs, g.isplaying = false) →
      kgran_scan h b e head x gs lo ro rs =
        some { x := x, grains := gs, lo := lo, ro := ro, log := [], rand := rs }
  | [], _ => by simp [kgran_scan]
  | g :: gs, hall => by
    have hg : g.isplaying = false := hall g (List.mem_cons_self g gs)
    have hcond : ¬ (x.newGrainCounter ≤ 0) := not_le.mpr hpos
    have hs : kgran_slot h b e head x g lo ro rs =
        some { x := x, grain := g, lo := lo, ro := ro, call := none, rand := rs } := by
      simp [kgran_slot, kgran_render_idle x b e head g hg, hcond]
    rw [kgran_scan, hs]
    simp only
    rw [kgran_scan_idle h b e head x lo ro rs hpos gs
      (fun g1 hg1 => hall g1 (List.mem_cons_of_mem g hg1))]
    simp

theorem t_kgran_grains_eta (x : t_kgran) : { x with grains := x.grains } = x := by
  cases x
  rfl

/-- The frames below `i` are not written by the silence loop started at `i`. -/
theorem kgran_zero_below :
    ∀ (n i : ℕ) (r_out l_out : ℕ → ℚ) (j : ℕ), j < i →
      (kgran_zero n i r_out l_out).1 j = r_out j ∧ (kgran_zero n i r_out l_out).2 j = l_out j
  | 0, _, _, _, _, _ => ⟨rfl, rfl⟩
  | n + 1, i, r_out, l_out, j, hj => by
    rw [kgran_zero]
    obtain ⟨h1, h2⟩ := kgran_zero_below n (i + 1) (Function.update r_out i 0)
      (Function.update l_out i 0) j (by omega)
    have hne : j ≠ i := by omega
    rw [h1, h2, Function.update_noteq hne, Function.update_noteq hne]
    exact ⟨rfl, rfl⟩

/-- The silence loop writes zero to the `n` frames from `i` on, in both vectors. -/
theorem kgran_zero_zero :
    ∀ (n i : ℕ) (r_out l_out : ℕ → ℚ) (j : ℕ), i ≤ j → j < i + n →
      (kgran_zero n i r_out l_out).1 j = 0 ∧ (kgran_zero n i r_out l_out).2 j = 0
  | 0, i, _, _, j, h1, h2 => by omega
  | n + 1, i, r_out, l_out, j, h1, h2 => by
    rw [kgran_zero]
    by_cases hji : j = i
    · subst hji
      obtain ⟨h3, h4⟩ := kgran_zero_below n (j + 1) (Function.update r_out j 0)
        (Function.update l_out j 0) j (by omega)
      rw [h3, h4, Function.update_same, Function.update_same]
      exact ⟨rfl, rfl⟩
    · exact kgran_zero_zero n (i + 1) _ _ j (by omega) (by omega)

/-- With a positive countdown and a pool of free slots, the frames of a block
change neither the object nor the outputs. -/
theorem kgran_frames_idle (h : Host) (b : List ℚ) (e : Option (List ℚ)) (inp : ℕ → ℚ)
    (x : t_kgran) (rs : List ℕ) (hpos : 0 < x.newGrainCounter)
    (hidle : ∀ g ∈ x.grains, g.isplaying = false) :
    ∀ (n i : ℕ) (head : ℚ) (r_out l_out : ℕ → ℚ),
      ∃ hd : ℚ, kgran_frames h b e inp n i x head r_out l_out rs =
        some { x := x, head := hd, r_out := r_out, l_out := l_out, log := [], rand := rs }
  | 0, _, head, _, _ => ⟨head, rfl⟩
  | n + 1, i, head, r_out, l_out => by
    have hf : kgran_frame h b e inp i x head r_out l_out rs =
        some { x := x, head := if x.w_connected ≠ 0 then inp i else head, r_out := r_out,
               l_out := l_out, log := [], rand := rs } := by
      simp only [kgran_frame]
      rw [kgran_scan_idle h b e _ x _ _ rs hpos x.grains hidle]
      simp only [t_kgran_grains_eta, Function.update_eq_self]
    obtain ⟨hd, hrest⟩ := kgran_frames_idle h b e inp x rs hpos hidle n (i + 1)
      (if x.w_connected ≠ 0 then inp i else head) r_out l_out
    refine ⟨hd, ?_⟩
    rw [kgran_frames, hf]
    simp only
    rw [hrest]
    simp

/-- What `kgran_perform64` does to the countdown on a block of any length `n`,
when the countdown is positive and every slot is free: it takes one off. -/
theorem kgran_perform64_idle (h : Host) (x : t_kgran) (bs : List ℚ) (e : Option (List ℚ))
    (inp r_out l_out : ℕ → ℚ) (n : ℕ) (rs : List ℕ) (hmod : x.w_buffer_modified = false)
    (hpos : 0 < x.newGrainCounter) (hidle : ∀ g ∈ x.grains, g.isplaying = false) :
    (kgran_perform64 h x (some bs) e inp r_out l_out n rs).map
      (fun r => r.x.newGrainCounter) = some (x.newGrainCounter - 1) := by
  obtain ⟨hd, hfr⟩ := kgran_frames_idle h bs e inp x rs hpos hidle n 0 0 r_out l_out
  have hcond : ¬ (x.newGrainCounter ≤ 0) := not_le.mpr hpos
  simp [kgran_perform64, hmod, hfr, hcond]

theorem host44100_increment (t : ℚ) (ht : ⌊(10 : ℚ) + t⌋ = 10) :
    cpsoct host44100 (10.0 + t) * (1.0 / cpsoct host44100 10.0) = 1 := by
  have h10 : ⌊(10 : ℚ)⌋ = 10 := by norm_num
  norm_num [cpsoct, host44100_pow, MIDC_OFFSET, ht, h10]

theorem expired_reset (rs : List ℕ) :
    kgran_reset_grain_rate host44100 expired (0 :: 0 :: rs) = some (rearmed, rs) := by
  norm_num [kgran_reset_grain_rate, expired, rearmed, kgran_graindur, kgran_grainrate, prob,
    prob_loop, prob_num, rrand_zero, host44100_pow, host44100_sr, cRound]

theorem rearmed_draw (rs : List ℕ) :
    kgran_grain_draw host44100 rearmed 0 (0 :: 0 :: 0 :: 0 :: 0 :: 0 :: rs) =
      some ({ head := 0, idealShift := 0, increment := 1, offset := 1, grainDurSamps := 441,
              sampOffset := 441 }, rs) := by
  have h10 : ⌊(10 : ℚ)⌋ = 10 := by norm_num
  norm_num [kgran_grain_draw, rearmed, expired, kgran_graindur, kgran_grainrate, fresh,
    kgran_new, prob, prob_loop, prob_num, rrand_zero, host44100_pow, host44100_sr, cTrunc,
    cFloor, cAbs, cRound, cpsoct, MIDC_OFFSET, h10]

theorem rearmed_new_grain (g : Grain) (rs : List ℕ) :
    kgran_new_grain host44100 rearmed g 0 (0 :: 0 :: 0 :: 0 :: 0 :: 0 :: 0 :: 0 :: rs) =
      some (spawnedGrain, Spawn.spawned, rs) := by
  rw [kgran_new_grain, rearmed_draw]
  norm_num [GrainDraw.maxShift, GrainDraw.minShift, GrainDraw.startTime, spawnedGrain,
    rearmed, expired, kgran_graindur, kgran_grainrate, fresh, kgran_new, prob, prob_loop,
    prob_num, cTrunc]

theorem fresh_grains : fresh.grains = idleGrain :: List.replicate 999 idleGrain := rfl

theorem replicate_idle (n : ℕ) : ∀ g ∈ List.replicate n idleGrain, g.isplaying = false := by
  intro g hg
  rw [List.eq_of_mem_replicate hg]
  rfl

theorem expired_slot (lo ro : ℚ) :
    kgran_slot host44100 silentSource (some flatEnvelope) 0 expired idleGrain lo ro
        [0, 0, 0, 0, 0, 0, 0, 0, 0, 0] =
      some { x := rearmed, grain := spawnedGrain, lo := lo, ro := ro,
             call := some Spawn.spawned, rand := [] } := by
  have hexp : expired.newGrainCounter ≤ 0 := by
    simp [expired, kgran_graindur, kgran_grainrate, fresh, kgran_new]
  have hre : (0 : ℤ) < rearmed.newGrainCounter := by simp [rearmed]
  rw [kgran_slot, kgran_render_idle _ _ _ _ idleGrain rfl]
  simp only [hexp, idleGrain, and_self, if_true, expired_reset, gt_iff_lt, hre,
    rearmed_new_grain, add_zero]

theorem expired_frame :
    kgran_frame host44100 silentSource (some flatEnvelope) zeroSignal 0 expired 0 zeroSignal
        zeroSignal [0, 0, 0, 0, 0, 0, 0, 0, 0, 0] = some expiredFrame := by
  have hgs : expired.grains = idleGrain :: List.replicate 999 idleGrain := rfl
  have hcon : expired.w_connected = 0 := rfl
  have hre : (0 : ℤ) < rearmed.newGrainCounter := by simp [rearmed]
  rw [kgran_frame, hgs, kgran_scan]
  simp only [hcon, ne_eq, not_true_eq_false, if_false, expired_slot]
  rw [kgran_scan_idle host44100 silentSource (some flatEnvelope) _ rearmed _ _ [] hre _
    (replicate_idle 999)]
  simp only [hcon, ne_eq, not_true_eq_false, if_false, expiredFrame, Option.toList_some,
    List.singleton_append, Option.some.injEq, Rendered.mk.injEq, and_true, true_and]
  constructor <;> funext i <;> simp [Function.update, zeroSignal]

/-- C4, at the failing input: a block of 64 frames on a valid buffer, every slot
free and 100 on the countdown, so that no re-arm happens.  After the block the
countdown is 99, not 100 - 64 = 36: the decrement stands after the loop over
the frames. -/
theorem kgran_perform64_block_of_64 :
    idleAt100.newGrainCounter = 100 ∧
      (kgran_perform64 host44100 idleAt100 (some silentSource) (some flatEnvelope) zeroSignal
        zeroSignal zeroSignal 64 []).map (fun r => r.x.newGrainCounter) = some 99 := by
  have hcnt : idleAt100.newGrainCounter = 100 := rfl
  refine ⟨hcnt, ?_⟩
  rw [kgran_perform64_idle host44100 idleAt100 silentSource (some flatEnvelope) zeroSignal
    zeroSignal zeroSignal 64 [] rfl (by rw [hcnt]; norm_num) (replicate_idle MAXGRAINS), hcnt]
  norm_num

/-- C5: in one sample frame of `kgran_perform64`, whatever the object, the
tables, the signals and the values of `rand()`, `kgran_new_grain` is called at
most once, and at most one slot that was free before the frame plays after it. -/
theorem kgran_frame_spawns_once (h : Host) (b : List ℚ) (e : Option (List ℚ))
    (inp : ℕ → ℚ) (i : ℕ) (x : t_kgran) (head : ℚ) (r_out l_out : ℕ → ℚ) (rs : List ℕ)
    (f : Rendered) (hf : kgran_frame h b e inp i x head r_out l_out rs = some f) :
    f.log.length ≤ 1 ∧ activated x.grains f.x.grains ≤ 1 := by
  unfold kgran_frame at hf
  generalize (if x.w_connected ≠ 0 then inp i else head) = hd at hf
  cases hsc : kgran_scan h b e hd x x.grains (l_out i) (r_out i) rs with
  | none => simp [hsc] at hf
  | some t =>
    simp only [hsc, Option.some.injEq] at hf
    obtain ⟨h1, h2⟩ := kgran_scan_once h b e hd x.grains x (l_out i) (r_out i) rs t hsc
    subst hf
    exact ⟨h1, le_trans h2 h1⟩

/-- Witness of C5: the frame rendered on `expired` (countdown 0, 1000 free
slots) re-arms at slot 0, spawns there, and leaves the 999 other free slots. -/
theorem kgran_frame_spawns_once_witness :
    expiredFrame.log.length ≤ 1 ∧ activated expired.grains expiredFrame.x.grains ≤ 1 :=
  kgran_frame_spawns_once host44100 silentSource (some flatEnvelope) zeroSignal 0 expired 0
    zeroSignal zeroSignal [0, 0, 0, 0, 0, 0, 0, 0, 0, 0] expiredFrame expired_frame

/-- C7: when the source buffer cannot be locked, or `w_buffer_modified` is set,
`kgran_perform64` returns with zero in the `n` frames of both outputs, and the
object (every grain, the countdown) is as before; no value of `rand()` is taken
and `kgran_new_grain` is not called. -/
theorem kgran_perform64_silence (h : Host) (x : t_kgran) (b e : Option (List ℚ))
    (inp r_out l_out : ℕ → ℚ) (n : ℕ) (rs : List ℕ)
    (hbuf : b = none ∨ x.w_buffer_modified = true) :
    ∃ r : Rendered, kgran_perform64 h x b e inp r_out l_out n rs = some r ∧ r.x = x ∧
      r.rand = rs ∧ r.log = [] ∧ ∀ i : ℕ, i < n → r.l_out i = 0 ∧ r.r_out i = 0 := by
  refine ⟨{ x := x, head := 0, r_out := (kgran_zero n 0 r_out l_out).1,
            l_out := (kgran_zero n 0 r_out l_out).2, log := [], rand := rs },
    ?_, rfl, rfl, rfl, fun i hi => ?_⟩
  · rcases hbuf with hb | hm
    · subst hb
      simp [kgran_perform64]
    · cases b with
      | none => simp [kgran_perform64]
      | some bs => simp [kgran_perform64, hm]
  · obtain ⟨h1, h2⟩ := kgran_zero_zero n 0 r_out l_out i (Nat.zero_le i) (by omega)
    exact ⟨h2, h1⟩

/-- Witness of C7: a block of 64 frames with no source buffer, on outputs that
held 1 in every frame. -/
theorem kgran_perform64_silence_witness :
    ∃ r : Rendered, kgran_perform64 host44100 fresh none (some flatEnvelope) zeroSignal
        (fun _ => 1) (fun _ => 1) 64 [] = some r ∧ r.x = fresh ∧
      r.rand = [] ∧ r.log = [] ∧ ∀ i : ℕ, i < 64 → r.l_out i = 0 ∧ r.r_out i = 0 :=
  kgran_perform64_silence host44100 fresh none (some flatEnvelope) zeroSignal (fun _ => 1)
    (fun _ => 1) 64 [] (Or.inl rfl)

theorem rateTenth_draw (rs : List ℕ) :
    kgran_grain_draw host44100 rateTenth 0 (0 :: 0 :: 0 :: 0 :: 2147483647 :: 2147483647 :: rs) =
      some ({ head := 0, idealShift := 0, increment := 1, offset := 1, grainDurSamps := 22050,
              sampOffset := 22050 }, rs) := by
  have h10 : ⌊(10 : ℚ)⌋ = 10 := by norm_num
  norm_num [kgran_grain_draw, rateTenth, kgran_graindur, kgran_grainrate, fresh,
    kgran_new, prob, prob_loop, prob_num, rrand_zero, rrand_max, host44100_pow, host44100_sr,
    cTrunc, cFloor, cAbs, cRound, cpsoct, MIDC_OFFSET, h10]

/-- C6: once the locals of `kgran_new_grain` are computed, if the sample
deviation is at least the buffer length, or `maxShift == minShift`, the call
returns the slot exactly as it was (every field, `isplaying` included) and does
not end as a spawn; and a slot that was free and plays after the call was not
rejected. -/
theorem kgran_new_grain_rejection (h : Host) (x : t_kgran) (grain : Grain) (sync : ℚ)
    (rs rs3 : List ℕ) (d : GrainDraw) (hd : kgran_grain_draw h x sync rs = some (d, rs3)) :
    ((d.sampOffset ≥ x.w_len ∨ d.maxShift x = d.minShift) →
        ∃ out : Spawn, kgran_new_grain h x grain sync rs = some (grain, out, rs3) ∧
          out ≠ Spawn.spawned) ∧
      ∀ (g1 : Grain) (out : Spawn) (rs1 : List ℕ),
        kgran_new_grain h x grain sync rs = some (g1, out, rs1) →
        grain.isplaying = false → g1.isplaying = true →
        ¬ (d.sampOffset ≥ x.w_len ∨ d.maxShift x = d.minShift) := by
  have hrej : (d.sampOffset ≥ x.w_len ∨ d.maxShift x = d.minShift) →
      ∃ out : Spawn, kgran_new_grain h x grain sync rs = some (grain, out, rs3) ∧
        out ≠ Spawn.spawned := by
    intro hor
    by_cases h1 : d.sampOffset ≥ x.w_len
    · exact ⟨Spawn.ignored, by simp [kgran_new_grain, hd, h1], by decide⟩
    · have h2 : d.maxShift x = d.minShift := hor.resolve_left h1
      exact ⟨Spawn.skipped, by simp [kgran_new_grain, hd, h1, h2], by decide⟩
  refine ⟨hrej, fun g1 out rs1 hcall hfree hplay hor => ?_⟩
  obtain ⟨out1, hcall1, _⟩ := hrej hor
  rw [hcall1] at hcall
  simp only [Option.some.injEq, Prod.mk.injEq] at hcall
  rw [← hcall.1, hfree] at hplay
  exact Bool.false_ne_true hplay

/-- Witness of C6: on a buffer of 1000 frames a grain of 22050 samples deviates
by 22050 samples; the call is rejected and the slot keeps its old grain. -/
theorem kgran_new_grain_rejection_witness :
    ∃ out : Spawn, kgran_new_grain host44100 rateTenth spawnedGrain 0
        [0, 0, 0, 0, 2147483647, 2147483647] = some (spawnedGrain, out, []) ∧
      out ≠ Spawn.spawned :=
  (kgran_new_grain_rejection host44100 rateTenth spawnedGrain 0
    [0, 0, 0, 0, 2147483647, 2147483647] []
    { head := 0, idealShift := 0, increment := 1, offset := 1, grainDurSamps := 22050,
      sampOffset := 22050 } (rateTenth_draw [])).1
    (Or.inl (by
      have hlen : rateTenth.w_len = 1000 := rfl
      rw [hlen]
      norm_num))

theorem cTrunc_intCast (z : ℤ) : cTrunc (z : ℚ) = z := by
  unfold cTrunc
  split <;> simp

theorem cTrunc_nonneg_lt (q : ℚ) (len : ℤ) (h0 : 0 ≤ q) (hlt : q < len) :
    0 ≤ cTrunc q ∧ cTrunc q < len := by
  unfold cTrunc
  rw [if_pos h0]
  exact ⟨Int.floor_nonneg.mpr h0, Int.floor_lt.mpr hlt⟩

theorem readAt_some (es : List ℚ) (i : ℤ) (h0 : 0 ≤ i) (hlt : i.toNat < es.length) :
    ∃ v : ℚ, readAt es i = some v := by
  unfold readAt
  rw [if_pos h0]
  exact ⟨es[i.toNat], List.getElem?_eq_getElem hlt⟩

theorem oscili_wrap_lt (len : ℚ) (fuel : ℕ) (phs : ℚ) (hlt : phs < len) :
    oscili_wrap len fuel phs = some phs := by
  have hno : ¬ (phs ≥ len) := not_le.mpr hlt
  cases fuel <;> simp [oscili_wrap, hno]

/-- Inside the table and without a wrap at its end, `oscili` is defined and
advances the phase by `si`. -/
theorem oscili_some (amp si : ℚ) (es : List ℚ) (len : ℤ) (phs : ℚ) (hlen : 0 < len)
    (hes : es.length = len.toNat) (h0 : 0 ≤ phs) (hsi : 0 ≤ si) (hlt : phs + si < len) :
    ∃ a : ℚ, oscili amp si es len phs = some (a, phs + si) := by
  have hphs : phs < len := by linarith
  obtain ⟨hi0, hilt⟩ := cTrunc_nonneg_lt phs len h0 hphs
  have hk0 : 0 ≤ (cTrunc phs + 1).tmod len := Int.tmod_nonneg _ (by omega)
  have hklt : (cTrunc phs + 1).tmod len < len := Int.tmod_lt_of_pos _ hlen
  obtain ⟨fi, hfi⟩ := readAt_some es (cTrunc phs) hi0 (by rw [hes]; omega)
  obtain ⟨fk, hfk⟩ := readAt_some es ((cTrunc phs + 1).tmod len) hk0 (by rw [hes]; omega)
  have hne : len ≠ 0 := by omega
  refine ⟨(fi + (fk - fi) * (phs - cTrunc phs)) * amp, ?_⟩
  unfold oscili
  simp only [hne, if_false, oscili_wrap_lt _ _ _ hlt, hfi, hfk]

/-- The frame in which the grain has run past its end: it is deactivated and
not rendered. -/
theorem kgran_render_expired (x : t_kgran) (b : List ℚ) (e : Option (List ℚ)) (head : ℚ)
    (g : Grain) (hg : g.isplaying = true) (hend : g.currTime + 1 > g.endTime) :
    kgran_render x b e head g =
      some ({ g with currTime := g.currTime + 1, isplaying := false }, 0, 0) := by
  simp [kgran_render, hg, hend]

/-- A frame in which a grain with `waveSampInc = 1` is rendered: `currTime`
goes up by two, the envelope phase by `ampSampInc`. -/
theorem kgran_render_unit (x : t_kgran) (b es : List ℚ) (head s : ℚ) (g : Grain)
    (hlen : 0 < x.w_envlen) (hes : es.length = x.w_envlen.toNat)
    (hb : readAt b (cFloor head) = some s) (hg : g.isplaying = true)
    (hend : g.currTime + 1 ≤ g.endTime) (hw : g.waveSampInc = 1) (h0 : 0 ≤ g.ampPhase)
    (hsi : 0 ≤ g.ampSampInc) (hlt : g.ampPhase + g.ampSampInc < x.w_envlen) :
    ∃ dl dr : ℚ, kgran_render x b (some es) head g =
      some ({ g with ampPhase := g.ampPhase + g.ampSampInc, currTime := g.currTime + 2 },
        dl, dr) := by
  obtain ⟨a, ha⟩ := oscili_some 1 g.ampSampInc es x.w_envlen g.ampPhase hlen hes h0 hsi hlt
  have hnot : ¬ (g.currTime + 1 > g.endTime) := not_lt.mpr hend
  have htr : cTrunc (((g.currTime + 1 : ℤ) : ℚ) + 1) = g.currTime + 2 := by
    have hc : (((g.currTime + 1 : ℤ) : ℚ) + 1) = ((g.currTime + 2 : ℤ) : ℚ) := by
      push_cast
      ring
    rw [hc, cTrunc_intCast]
  refine ⟨a * s * g.panL, a * s * g.panR, ?_⟩
  simp only [kgran_render, hg, if_true, hnot, if_false, ha, hb, hw, htr]

/-- The life of a grain with `waveSampInc = 1`: when `endTime` is `2 n - 1` or
`2 n` past `currTime`, the grain is rendered in exactly `n` frames and the
envelope phase has advanced by `n * ampSampInc`. -/
theorem kgran_life_unit (x : t_kgran) (b es : List ℚ) (head s : ℚ)
    (hlen : 0 < x.w_envlen) (hes : es.length = x.w_envlen.toNat)
    (hb : readAt b (cFloor head) = some s) :
    ∀ (n fuel : ℕ) (g : Grain), g.isplaying = true → g.waveSampInc = 1 →
      0 ≤ g.ampPhase → 0 ≤ g.ampSampInc →
      g.ampPhase + (n : ℚ) * g.ampSampInc < x.w_envlen →
      g.currTime + 2 * (n : ℤ) - 1 ≤ g.endTime → g.endTime ≤ g.currTime + 2 * (n : ℤ) →
      n < fuel →
      ∃ g1 : Grain, kgran_life x b (some es) head fuel g = some (n, g1) ∧
        g1.ampPhase = g.ampPhase + (n : ℚ) * g.ampSampInc ∧ g1.isplaying = false
  | _, 0, _, _, _, _, _, _, _, _, hfuel => by omega
  | 0, fuel + 1, g, hg, _, _, _, _, _, hhi, _ => by
    have hend : g.currTime + 1 > g.endTime := by
      simp only [Nat.cast_zero, mul_zero, add_zero] at hhi
      omega
    refine ⟨{ g with currTime := g.currTime + 1, isplaying := false }, ?_, by simp, rfl⟩
    rw [kgran_life, kgran_render_expired x b (some es) head g hg hend]
    simp
  | n + 1, fuel + 1, g, hg, hw, h0, hsi, hlt, hlo, hhi, hfuel => by
    have hend : g.currTime + 1 ≤ g.endTime := by
      push_cast at hlo
      omega
    have hstep : g.ampPhase + g.ampSampInc < x.w_envlen := by
      have hn : (0 : ℚ) ≤ (n : ℚ) * g.ampSampInc := mul_nonneg (Nat.cast_nonneg n) hsi
      push_cast at hlt
      linarith
    obtain ⟨dl, dr, hr⟩ := kgran_render_unit x b es head s g hlen hes hb hg hend hw h0 hsi hstep
    obtain ⟨g1, hlife, hphase, hplay⟩ := kgran_life_unit x b es head s hlen hes hb n fuel
      { g with ampPhase := g.ampPhase + g.ampSampInc, currTime := g.currTime + 2 }
      hg hw (by simp only; linarith) hsi
      (by simp only; push_cast at hlt; linarith)
      (by simp only; push_cast at hlo; omega)
      (by simp only; push_cast at hhi; omega)
      (by omega)
    refine ⟨g1, ?_, ?_, hplay⟩
    · rw [kgran_life, hr]
      simp only [hg] at hlife
      simp only [hg, if_true, hlife, Option.map_some']
    · rw [hphase]
      push_cast
      ring


/-! ## Claim on the life of a grain -/

/-- C11, at the failing input: on `rearmed` (envelope of 512 frames, 44100 Hz)
`kgran_new_grain` draws a duration of 441 samples and an increment of 1 and
spawns `spawnedGrain`; the grain is then rendered in 221 frames, not 441, and
is deactivated with the envelope phase at `221 * 512 / 441`, about half of the
table: `currTime` goes up by two in every rendered frame. -/
theorem spawned_grain_renders_half :
    kgran_grain_draw host44100 rearmed 0 [0, 0, 0, 0, 0, 0, 0, 0] =
        some ({ head := 0, idealShift := 0, increment := 1, offset := 1,
                grainDurSamps := 441, sampOffset := 441 }, [0, 0]) ∧
      kgran_new_grain host44100 rearmed idleGrain 0 [0, 0, 0, 0, 0, 0, 0, 0] =
        some (spawnedGrain, Spawn.spawned, []) ∧
      ∃ g1 : Grain, kgran_life rearmed silentSource (some flatEnvelope) 0 442 spawnedGrain =
          some (221, g1) ∧
        g1.ampPhase = 221 * (512 / 441) ∧ g1.ampPhase < 257 ∧ g1.isplaying = false := by
  refine ⟨rearmed_draw [0, 0], rearmed_new_grain idleGrain [], ?_⟩
  have hlen : rearmed.w_envlen = 512 := rfl
  obtain ⟨g1, hlife, hphase, hplay⟩ := kgran_life_unit rearmed silentSource flatEnvelope 0 0
    (by rw [hlen]; norm_num) (by rw [hlen, flatEnvelope, List.length_replicate]; rfl)
    (by norm_num [readAt, cFloor, silentSource]) 221 442 spawnedGrain rfl rfl
    (by simp [spawnedGrain]) (by norm_num [spawnedGrain])
    (by rw [hlen]; norm_num [spawnedGrain]) (by norm_num [spawnedGrain])
    (by norm_num [spawnedGrain]) (by norm_num)
  have hval : g1.ampPhase = 221 * (512 / 441) := by
    rw [hphase]
    norm_num [spawnedGrain]
  exact ⟨g1, hlife, hval, by rw [hval]; norm_num, hplay⟩

end KGran

/-! # `prob` and the writes of `kgran_new_grain` in the arithmetic of the machine -/

namespace KGran.Ieee

/-! ## Rounding -/

theorem roundHalfEven_intCast (n : ℤ) : roundHalfEven (n : ℚ) = n := by
  simp [roundHalfEven]

theorem roundHalfEven_near (x : ℚ) (m : ℤ) (h1 : (m : ℚ) - 1 / 2 < x) (h2 : x < m + 1 / 2) :
    roundHalfEven x = m := by
  unfold roundHalfEven
  by_cases hx : (m : ℚ) ≤ x
  · have hf : ⌊x⌋ = m := by
      rw [Int.floor_eq_iff]
      constructor
      · exact hx
      · linarith
    rw [hf, if_pos (by linarith)]
  · have hf : ⌊x⌋ = m - 1 := by
      rw [Int.floor_eq_iff]
      push_cast
      constructor <;> linarith
    rw [hf]
    push_cast
    rw [if_neg (by linarith), if_pos (by linarith)]
    ring

theorem roundHalfEven_tie_even (f : ℤ) (hf : f % 2 = 0) : roundHalfEven ((f : ℚ) + 1 / 2) = f := by
  have hfl : ⌊(f : ℚ) + 1 / 2⌋ = f := by
    rw [Int.floor_eq_iff]
    constructor <;> linarith
  unfold roundHalfEven
  rw [hfl]
  rw [if_neg (by linarith), if_neg (by linarith), if_pos hf]

theorem roundHalfEven_tie_odd (f : ℤ) (hf : f % 2 = 1) :
    roundHalfEven ((f : ℚ) + 1 / 2) = f + 1 := by
  have hfl : ⌊(f : ℚ) + 1 / 2⌋ = f := by
    rw [Int.floor_eq_iff]
    constructor <;> linarith
  unfold roundHalfEven
  rw [hfl]
  rw [if_neg (by linarith), if_neg (by linarith), if_neg (by omega)]

theorem log2_eq (r : ℚ) (e : ℤ) (h1 : (2 : ℚ) ^ e ≤ r) (h2 : r < (2 : ℚ) ^ (e + 1)) :
    Int.log 2 r = e := by
  have hr : 0 < r := lt_of_lt_of_le (zpow_pos (by norm_num) e) h1
  have ha : e ≤ Int.log 2 r := (Int.zpow_le_iff_le_log (by norm_num) hr).mp (by exact_mod_cast h1)
  have hb : Int.log 2 r < e + 1 := (Int.lt_zpow_iff_log_lt (by norm_num) hr).mp (by exact_mod_cast h2)
  omega

/-- Evaluation of a rounding from the binade of `q` and the rounded significand. -/
theorem roundTo_eval (p : ℕ) (emin emax : ℤ) (q : ℚ) (e m : ℤ)
    (h1 : (2 : ℚ) ^ e ≤ |q|) (h2 : |q| < (2 : ℚ) ^ (e + 1)) (hmin : emin ≤ e)
    (hm : roundHalfEven (q / 2 ^ (e - p + 1)) = m)
    (hmax : |(m : ℚ) * 2 ^ (e - p + 1)| < 2 ^ emax) :
    roundTo p emin emax q = Dbl.fin (m * 2 ^ (e - p + 1)) := by
  have hq : q ≠ 0 := by
    intro h0
    rw [h0, abs_zero] at h1
    exact absurd h1 (not_le.mpr (zpow_pos (by norm_num) e))
  have hlog : max (Int.log 2 |q|) emin = e := by
    rw [log2_eq |q| e h1 h2]
    exact max_eq_left hmin
  unfold roundTo
  simp only [hq, if_false, hlog, hm, hmax, if_true]

theorem ulp_small (p : ℕ) (e : ℤ) (he : e ≤ (p : ℤ) - 1) :
    ∃ j : ℕ, (2 : ℚ) ^ (e - p + 1) = ((2 : ℚ) ^ j)⁻¹ := by
  refine ⟨((p : ℤ) - 1 - e).toNat, ?_⟩
  have hj : (((p : ℤ) - 1 - e).toNat : ℤ) = (p : ℤ) - 1 - e := Int.toNat_of_nonneg (by omega)
  have hexp : e - (p : ℤ) + 1 = -(((p : ℤ) - 1 - e).toNat : ℤ) := by omega
  rw [hexp, zpow_neg, zpow_natCast]

/-- A non-negative integer below `2 ^ p` is a value of the format: it rounds to
itself. -/
theorem roundTo_int (p : ℕ) (emin emax : ℤ) (n : ℤ) (hemin : emin ≤ 0) (hpmax : (p : ℤ) ≤ emax)
    (h0 : 0 ≤ n) (hn : (n : ℚ) < 2 ^ p) : roundTo p emin emax (n : ℚ) = Dbl.fin n := by
  rcases eq_or_lt_of_le h0 with hz | hpos
  · subst hz
    simp [roundTo]
  · have hq : (0 : ℚ) < n := by exact_mod_cast hpos
    have hq1 : (1 : ℚ) ≤ n := by exact_mod_cast (by omega : (1 : ℤ) ≤ n)
    have habs : |(n : ℚ)| = n := abs_of_pos hq
    have hlog0 : 0 ≤ Int.log 2 (n : ℚ) :=
      (Int.zpow_le_iff_le_log (by norm_num) hq).mp (by simpa using hq1)
    have hlogp : Int.log 2 (n : ℚ) < p :=
      (Int.lt_zpow_iff_log_lt (by norm_num) hq).mp (by simpa using hn)
    have hmax : max (Int.log 2 (n : ℚ)) emin = Int.log 2 (n : ℚ) := max_eq_left (by omega)
    obtain ⟨j, hj⟩ := ulp_small p (Int.log 2 (n : ℚ)) (by omega)
    have hpow : (0 : ℚ) < 2 ^ j := pow_pos (by norm_num) j
    have hdiv : (n : ℚ) / ((2 : ℚ) ^ j)⁻¹ = ((n * 2 ^ j : ℤ) : ℚ) := by
      rw [div_inv_eq_mul]
      push_cast
      rfl
    have hr : (roundHalfEven ((n : ℚ) / ((2 : ℚ) ^ j)⁻¹) : ℚ) * ((2 : ℚ) ^ j)⁻¹ = n := by
      rw [hdiv, roundHalfEven_intCast]
      push_cast
      field_simp
    have hlt : |(n : ℚ)| < 2 ^ emax := by
      rw [habs]
      have hle : (2 : ℚ) ^ (p : ℤ) ≤ (2 : ℚ) ^ emax :=
        zpow_le_zpow_right₀ (by norm_num) hpmax
      rw [zpow_natCast] at hle
      exact lt_of_lt_of_le hn hle
    unfold roundTo
    rw [habs] at hlt
    simp only [hq.ne', if_false, habs, hmax, hj, hr, hlt, if_true]

/-- Evaluation of a rounding that is exact: `q` is a multiple of the unit in
the last place of its binade. -/
theorem roundTo_exact (p : ℕ) (emin emax : ℤ) (q : ℚ) (e m : ℤ)
    (h1 : (2 : ℚ) ^ e ≤ |q|) (h2 : |q| < (2 : ℚ) ^ (e + 1)) (hmin : emin ≤ e)
    (hq : q = (m : ℚ) * 2 ^ (e - p + 1)) (hmax : |q| < 2 ^ emax) :
    roundTo p emin emax q = Dbl.fin q := by
  have hulp : (2 : ℚ) ^ (e - p + 1) ≠ 0 := zpow_ne_zero _ (by norm_num)
  have hm : roundHalfEven (q / 2 ^ (e - p + 1)) = m := by
    have : q / 2 ^ (e - p + 1) = (m : ℚ) := by
      rw [hq]
      field_simp
    rw [this, roundHalfEven_intCast]
  have := roundTo_eval p emin emax q e m h1 h2 hmin hm (by rw [← hq]; exact hmax)
  rw [this, ← hq]

/-! ### The operations on finite values -/

theorem Dbl.add_fin (rnd : ℚ → Dbl) (a b : ℚ) :
    Dbl.add rnd (Dbl.fin a) (Dbl.fin b) = rnd (a + b) := rfl

theorem Dbl.sub_fin (rnd : ℚ → Dbl) (a b : ℚ) :
    Dbl.sub rnd (Dbl.fin a) (Dbl.fin b) = rnd (a - b) := rfl

theorem Dbl.mul_fin (rnd : ℚ → Dbl) (a b : ℚ) :
    Dbl.mul rnd (Dbl.fin a) (Dbl.fin b) = rnd (a * b) := rfl

theorem Dbl.div_fin (rnd : ℚ → Dbl) (a b : ℚ) (hb : b ≠ 0) :
    Dbl.div rnd (Dbl.fin a) (Dbl.fin b) = rnd (a / b) := by
  show (if b = 0 then _ else rnd (a / b)) = rnd (a / b)
  rw [if_neg hb]

theorem Dbl.lt_fin (a b : ℚ) : Dbl.lt (Dbl.fin a) (Dbl.fin b) = decide (a < b) := rfl

/-! ### Roundings used below -/

theorem round64_zero : round64 0 = Dbl.fin 0 := by
  simp [round64, roundTo]

theorem round64_one : round64 1 = Dbl.fin 1 :=
  roundTo_exact 53 (-1022) 1024 1 0 (2 ^ 52) (by norm_num) (by norm_num) (by norm_num)
    (by norm_num) (by norm_num)

theorem round64_neg_one : round64 (-1) = Dbl.fin (-1) :=
  roundTo_exact 53 (-1022) 1024 (-1) 0 (-2 ^ 52) (by norm_num) (by norm_num) (by norm_num)
    (by norm_num) (by norm_num)

theorem round64_two : round64 2 = Dbl.fin 2 :=
  roundTo_exact 53 (-1022) 1024 2 1 (2 ^ 52) (by norm_num) (by norm_num) (by norm_num)
    (by norm_num) (by norm_num)

theorem round64_rand_max : round64 2147483647 = Dbl.fin 2147483647 :=
  roundTo_exact 53 (-1022) 1024 2147483647 30 (2147483647 * 2 ^ 22) (by norm_num)
    (by norm_num) (by norm_num) (by norm_num) (by norm_num)

theorem round64_rand_max_half : round64 (2147483647 / 2) = Dbl.fin (2147483647 / 2) :=
  roundTo_exact 53 (-1022) 1024 (2147483647 / 2) 29 (2147483647 * 2 ^ 22)
    (by norm_num [abs_div]) (by norm_num [abs_div]) (by norm_num) (by norm_num)
    (by norm_num [abs_div])

/-! ### `rrand` on the C library with a 31 bit `rand()` -/

theorem libm31_rand_max : ((libm31.RAND_MAX : ℕ) : ℚ) = 2147483647 := by
  have hrm : libm31.RAND_MAX = 2147483647 := rfl
  rw [hrm]
  norm_num

theorem rrand_div : Dbl.div round64 (round64 libm31.RAND_MAX)
    (Dbl.sub round64 (Dbl.fin 1) (Dbl.fin (-1))) = Dbl.fin (2147483647 / 2) := by
  have h2 : (1 : ℚ) - (-1) = 2 := by norm_num
  rw [libm31_rand_max, round64_rand_max, Dbl.sub_fin, h2, round64_two,
    Dbl.div_fin _ _ _ (by norm_num), round64_rand_max_half]

/-- The value of `rrand` when `rand()` returns 0. -/
theorem rrand_at_zero : rrand libm31 0 = Dbl.fin (-1) := by
  have h0 : (((0 : ℕ) : ℚ)) = 0 := by norm_num
  have hd : (0 : ℚ) / (2147483647 / 2) = 0 := by norm_num
  have ha : (-1 : ℚ) + 0 = -1 := by norm_num
  simp only [rrand, rrand_div]
  rw [h0, round64_zero, Dbl.div_fin _ _ _ (by norm_num), hd, round64_zero, Dbl.add_fin, ha,
    round64_neg_one]

/-- The value of `rrand` when `rand()` returns `RAND_MAX`. -/
theorem rrand_at_max : rrand libm31 2147483647 = Dbl.fin 1 := by
  have hc : ((2147483647 : ℕ) : ℚ) = 2147483647 := by norm_num
  have hd : (2147483647 : ℚ) / (2147483647 / 2) = 2 := by norm_num
  have ha : (-1 : ℚ) + 2 = 1 := by norm_num
  simp only [rrand, rrand_div]
  rw [hc, round64_rand_max, Dbl.div_fin _ _ _ (by norm_num), hd, round64_two, Dbl.add_fin, ha,
    round64_one]

theorem prob_base_zero : prob_base libm31 0 = Dbl.fin 0 := by
  have ha : (-1 : ℚ) + 1 = 0 := by norm_num
  rw [prob_base, rrand_at_zero, Dbl.add_fin, ha, round64_zero, Dbl.mul_fin, zero_mul, round64_zero]

theorem prob_base_max : prob_base libm31 2147483647 = Dbl.fin 1 := by
  have ha : (1 : ℚ) + 1 = 2 := by norm_num
  have hm : (2 : ℚ) * (1 / 2) = 1 := by norm_num
  rw [prob_base, rrand_at_max, Dbl.add_fin, ha, round64_two, Dbl.mul_fin, hm, round64_one]

/-! ### The exit test of `prob` -/

/-- A value `prob_loop` returns has passed the exit test of the loop. -/
theorem prob_loop_exit (h : Libm) (low mid high tight range : Dbl) :
    ∀ (rs : List ℕ) (v : Dbl) (rest : List ℕ),
      prob_loop h low mid high tight range rs = some (v, rest) →
      Dbl.lt v low = false ∧ Dbl.lt high v = false
  | [], v, rest, hret => by simp [prob_loop] at hret
  | [_], v, rest, hret => by simp [prob_loop] at hret
  | r1 :: r2 :: rs, v, rest, hret => by
    rw [prob_loop] at hret
    by_cases hrej : (Dbl.lt (prob_num h mid tight range r1 r2) low ||
        Dbl.lt high (prob_num h mid tight range r1 r2)) = true
    · rw [if_pos hrej] at hret
      exact prob_loop_exit h low mid high tight range rs v rest hret
    · rw [if_neg hrej] at hret
      simp only [Option.some.injEq, Prod.mk.injEq] at hret
      rw [← hret.1]
      simpa using hrej

/-- Between two values that are not NaN, `a < b` false means `b <= a`. -/
theorem Dbl.le_of_not_lt (a b : Dbl) (ha : a ≠ Dbl.nan) (hb : b ≠ Dbl.nan)
    (hlt : Dbl.lt a b = false) : Dbl.le b a = true := by
  cases a <;> cases b <;> simp_all [Dbl.lt, Dbl.le]

theorem libm31_pow (x t : Dbl) : libm31.pow x t = powStd x t := rfl

theorem powStd_zero_neg_one : powStd (Dbl.fin 0) (Dbl.fin (-1)) = Dbl.pinf := by
  norm_num [powStd, Dbl.lt_fin]

theorem powStd_one (t : Dbl) : powStd (Dbl.fin 1) t = Dbl.fin 1 := by
  simp [powStd]

theorem powStd_exp_zero (x : Dbl) : powStd x (Dbl.fin 0) = Dbl.fin 1 := by
  simp [powStd]

theorem powStd_zero_one : powStd (Dbl.fin 0) (Dbl.fin 1) = Dbl.fin 0 := by
  norm_num [powStd, Dbl.lt_fin]

/-- C1, as stated, fails: with `low = mid = high = 1` and `tight = -1`, when
`rand()` returns 0 twice, `pow(0, -1)` is `+∞`, the candidate `+∞ * 0` is a NaN,
both comparisons of the exit test are false and `prob` returns the NaN, which
is not in `[1, 1]`. -/
theorem prob_returns_nan :
    prob libm31 (Dbl.fin 1) (Dbl.fin 1) (Dbl.fin 1) (Dbl.fin (-1)) [0, 0] = some (Dbl.nan, []) ∧
      Dbl.le (Dbl.fin 1) Dbl.nan = false ∧ Dbl.le Dbl.nan (Dbl.fin 1) = false := by
  have hs : (1 : ℚ) - 1 = 0 := by norm_num
  have hlt : Dbl.lt (Dbl.fin 0) (Dbl.fin 0) = false := by simp [Dbl.lt_fin]
  have hsign : Dbl.lt (Dbl.fin 0) (Dbl.fin (-1)) = false := by norm_num [Dbl.lt_fin]
  have hnum : prob_num libm31 (Dbl.fin 1) (Dbl.fin (-1)) (Dbl.fin 0) 0 0 = Dbl.nan := by
    rw [prob_num, rrand_at_zero, prob_base_zero, libm31_pow, powStd_zero_neg_one]
    simp only [hsign]
    rfl
  refine ⟨?_, rfl, rfl⟩
  rw [prob]
  simp only [Dbl.sub_fin, hs, round64_zero, hlt, Bool.false_eq_true, if_false]
  rw [prob_loop, hnum]
  rfl

/-- C1, amended: a value that `prob` returns lies in `[low, high]` when neither
it nor `low` nor `high` is a NaN.  This holds whatever `pow` and `RAND_MAX` are,
for every `low`, `mid`, `high`, `tight` and all values of `rand()`. -/
theorem prob_in_range_unless_nan (h : Libm) (low mid high tight v : Dbl) (rs rest : List ℕ)
    (hret : prob h low mid high tight rs = some (v, rest)) (hv : v ≠ Dbl.nan)
    (hlow : low ≠ Dbl.nan) (hhigh : high ≠ Dbl.nan) :
    Dbl.le low v = true ∧ Dbl.le v high = true := by
  obtain ⟨h1, h2⟩ := prob_loop_exit h low mid high tight _ rs v rest hret
  exact ⟨Dbl.le_of_not_lt v low hv hlow h1, Dbl.le_of_not_lt high v hhigh hv h2⟩

theorem prob_unit_run :
    prob libm31 (Dbl.fin 0) (Dbl.fin 0) (Dbl.fin 1) (Dbl.fin 1)
      [0, 2147483647, 2147483647, 2147483647] = some (Dbl.fin 1, []) := by
  have hs0 : (0 : ℚ) - 0 = 0 := by norm_num
  have hs1 : (1 : ℚ) - 0 = 1 := by norm_num
  have hlt : Dbl.lt (Dbl.fin 0) (Dbl.fin 1) = true := by norm_num [Dbl.lt_fin]
  have hneg : Dbl.lt (Dbl.fin 0) (Dbl.fin (-1)) = false := by norm_num [Dbl.lt_fin]
  have hm1 : (1 : ℚ) * 1 = 1 := by norm_num
  have hm2 : (-1 : ℚ) * 1 = -1 := by norm_num
  have ha1 : (0 : ℚ) + -1 = -1 := by norm_num
  have ha2 : (0 : ℚ) + 1 = 1 := by norm_num
  have hnum1 : prob_num libm31 (Dbl.fin 0) (Dbl.fin 1) (Dbl.fin 1) 0 2147483647 =
      Dbl.fin (-1) := by
    rw [prob_num, rrand_at_zero, prob_base_max, libm31_pow, powStd_one]
    simp only [hneg, Bool.false_eq_true, if_false, Dbl.mul_fin, hm1, round64_one, hm2,
      round64_neg_one, Dbl.add_fin, ha1]
  have hnum2 : prob_num libm31 (Dbl.fin 0) (Dbl.fin 1) (Dbl.fin 1) 2147483647 2147483647 =
      Dbl.fin 1 := by
    rw [prob_num, rrand_at_max, prob_base_max, libm31_pow, powStd_one]
    simp only [hlt, if_true, Dbl.mul_fin, hm1, round64_one, Dbl.add_fin, ha2]
  have hrej : (Dbl.lt (Dbl.fin (-1)) (Dbl.fin 0) || Dbl.lt (Dbl.fin 1) (Dbl.fin (-1))) = true := by
    norm_num [Dbl.lt_fin]
  have hacc : ¬ ((Dbl.lt (Dbl.fin 1) (Dbl.fin 0) || Dbl.lt (Dbl.fin 1) (Dbl.fin 1)) = true) := by
    norm_num [Dbl.lt_fin]
  rw [prob]
  simp only [Dbl.sub_fin, hs0, hs1, round64_zero, round64_one, hlt, if_true]
  rw [prob_loop, hnum1]
  rw [if_pos hrej, prob_loop, hnum2]
  rw [if_neg hacc]

/-- Witness of C1 amended: on `[0, 1]` with `mid = 0` the first candidate is
`-1` and is rejected, the second is `1` and is returned. -/
theorem prob_in_range_unless_nan_witness :
    Dbl.le (Dbl.fin 0) (Dbl.fin 1) = true ∧ Dbl.le (Dbl.fin 1) (Dbl.fin 1) = true :=
  prob_in_range_unless_nan libm31 (Dbl.fin 0) (Dbl.fin 0) (Dbl.fin 1) (Dbl.fin 1) (Dbl.fin 1)
    [0, 2147483647, 2147483647, 2147483647] [] prob_unit_run (by simp) (by simp) (by simp)

/-! ### The degenerate case `low = mid = high` -/

/-- With `low = mid = high = c`, `c` a value of the format, and a finite value
of `pow`, the first iteration of the loop returns `c`. -/
theorem prob_degenerate (h : Libm) (q p : ℚ) (tight : Dbl) (r1 r2 : ℕ) (rest : List ℕ)
    (hq : round64 q = Dbl.fin q) (hp : h.pow (prob_base h r2) tight = Dbl.fin p) :
    prob h (Dbl.fin q) (Dbl.fin q) (Dbl.fin q) tight (r1 :: r2 :: rest) =
      some (Dbl.fin q, rest) := by
  have hs : q - q = 0 := sub_self q
  have hlt : Dbl.lt (Dbl.fin 0) (Dbl.fin 0) = false := by simp [Dbl.lt_fin]
  have hnum : prob_num h (Dbl.fin q) tight (Dbl.fin 0) r1 r2 = Dbl.fin q := by
    rw [prob_num, hp, Dbl.mul_fin, mul_zero, round64_zero]
    by_cases hsg : Dbl.lt (Dbl.fin 0) (rrand h r1) = true
    · rw [if_pos hsg, Dbl.mul_fin, mul_zero, round64_zero, Dbl.add_fin, add_zero, hq]
    · rw [if_neg hsg, Dbl.mul_fin, mul_zero, round64_zero, Dbl.add_fin, add_zero, hq]
  have hacc : ¬ ((Dbl.lt (Dbl.fin q) (Dbl.fin q) || Dbl.lt (Dbl.fin q) (Dbl.fin q)) = true) := by
    simp [Dbl.lt_fin]
  rw [prob]
  simp only [Dbl.sub_fin, hs, round64_zero, hlt, Bool.false_eq_true, if_false]
  rw [prob_loop, hnum]
  rw [if_neg hacc]

/-- C9, as stated, fails: with `low = mid = high = 1` and `tight = 1` the call
takes two values of `rand()` (it hands back `[]`, not `[0, 0]`), and with no
value to take it does not return. -/
theorem prob_degenerate_consumes :
    prob libm31 (Dbl.fin 1) (Dbl.fin 1) (Dbl.fin 1) (Dbl.fin 1) [0, 0] = some (Dbl.fin 1, []) ∧
      prob libm31 (Dbl.fin 1) (Dbl.fin 1) (Dbl.fin 1) (Dbl.fin 1) [] = none := by
  constructor
  · exact prob_degenerate libm31 1 0 (Dbl.fin 1) 0 0 [] round64_one
      (by rw [prob_base_zero, libm31_pow, powStd_zero_one])
  · simp [prob, prob_loop]

/-- C9, amended: with `low = mid = high = c`, `c` a finite `double`, and a
`tight` for which `pow` returns a finite value at the drawn base, `prob` returns
exactly `c` (the two zeros being one value) at the end of the first iteration
of its loop, having taken exactly two values of `rand()`; it does not return
on fewer. -/
theorem prob_degenerate_first_iteration (h : Libm) (q p : ℚ) (tight : Dbl) (r1 r2 : ℕ)
    (rest : List ℕ) (hq : round64 q = Dbl.fin q)
    (hp : h.pow (prob_base h r2) tight = Dbl.fin p) :
    prob h (Dbl.fin q) (Dbl.fin q) (Dbl.fin q) tight (r1 :: r2 :: rest) =
        some (Dbl.fin q, rest) ∧
      prob h (Dbl.fin q) (Dbl.fin q) (Dbl.fin q) tight [] = none ∧
      prob h (Dbl.fin q) (Dbl.fin q) (Dbl.fin q) tight [r1] = none := by
  refine ⟨prob_degenerate h q p tight r1 r2 rest hq hp, ?_, ?_⟩
  · simp [prob, prob_loop]
  · simp [prob, prob_loop]

/-- Witness of C9 amended: `c = 2`, `tight = 0`, the values 2147483647 and 0 of
`rand()` taken, the value 7 left. -/
theorem prob_degenerate_first_iteration_witness :
    prob libm31 (Dbl.fin 2) (Dbl.fin 2) (Dbl.fin 2) (Dbl.fin 0) [2147483647, 0, 7] =
        some (Dbl.fin 2, [7]) ∧
      prob libm31 (Dbl.fin 2) (Dbl.fin 2) (Dbl.fin 2) (Dbl.fin 0) [] = none ∧
      prob libm31 (Dbl.fin 2) (Dbl.fin 2) (Dbl.fin 2) (Dbl.fin 0) [2147483647] = none :=
  prob_degenerate_first_iteration libm31 2 1 (Dbl.fin 0) 2147483647 0 [7] round64_two
    (by rw [libm31_pow, powStd_exp_zero])

/-! ### Rounding on the input `prob(0.1, 0.5, 0.5, 0)` -/

/-- The subtraction `0.5 - 0.1` is not exact: it is a tie between two values of
the format and rounds up, to the `double` nearest to 0.4. -/
theorem round64_half_sub_tenth :
    round64 (1 / 2 - 3602879701896397 / 36028797018963968) =
      Dbl.fin (3602879701896397 / 9007199254740992) := by
  have h := roundTo_eval 53 (-1022) 1024 (1 / 2 - 3602879701896397 / 36028797018963968) (-2)
    7205759403792794 (by norm_num [abs_div]) (by norm_num [abs_div]) (by norm_num)
    (by
      have ht := roundHalfEven_tie_odd 7205759403792793 (by norm_num)
      have he : ((1 : ℚ) / 2 - 3602879701896397 / 36028797018963968) /
          2 ^ ((-2 : ℤ) - (53 : ℕ) + 1) = ((7205759403792793 : ℤ) : ℚ) + 1 / 2 := by norm_num
      rw [he, ht]
      norm_num)
    (by norm_num [abs_div])
  rw [round64, h]
  norm_num

theorem round64_four_tenths :
    round64 (3602879701896397 / 9007199254740992) =
      Dbl.fin (3602879701896397 / 9007199254740992) :=
  roundTo_exact 53 (-1022) 1024 _ (-2) 7205759403792794 (by norm_num [abs_div])
    (by norm_num [abs_div]) (by norm_num) (by norm_num) (by norm_num [abs_div])

theorem round64_neg_four_tenths :
    round64 (-(3602879701896397 / 9007199254740992)) =
      Dbl.fin (-(3602879701896397 / 9007199254740992)) :=
  roundTo_exact 53 (-1022) 1024 _ (-2) (-7205759403792794) (by norm_num [abs_div])
    (by norm_num [abs_div]) (by norm_num) (by norm_num) (by norm_num [abs_div])

theorem round64_upper :
    round64 (1 / 2 + 3602879701896397 / 9007199254740992) =
      Dbl.fin (8106479329266893 / 9007199254740992) := by
  have h := roundTo_exact 53 (-1022) 1024 (1 / 2 + 3602879701896397 / 9007199254740992) (-1)
    8106479329266893 (by norm_num [abs_div]) (by norm_num [abs_div]) (by norm_num)
    (by norm_num) (by norm_num [abs_div])
  rw [round64, h]
  norm_num

theorem round64_lower :
    round64 (1 / 2 + -(3602879701896397 / 9007199254740992)) =
      Dbl.fin (900719925474099 / 9007199254740992) := by
  have h := roundTo_exact 53 (-1022) 1024 (1 / 2 + -(3602879701896397 / 9007199254740992)) (-4)
    7205759403792792 (by norm_num [abs_div]) (by norm_num [abs_div]) (by norm_num)
    (by norm_num) (by norm_num [abs_div])
  rw [round64, h]
  norm_num

/-- On `prob(0.1, 0.5, 0.5, 0)` the candidate of an iteration is one of two
values, whatever `rand()` returns: about 0.9 on the upper side, and
`0.5 - 0.4 = 0.09999999999999998` on the lower, larger side. -/
theorem prob_num_tenth (r1 r2 : ℕ) :
    prob_num libm31 (Dbl.fin (1 / 2)) (Dbl.fin 0)
        (Dbl.fin (3602879701896397 / 9007199254740992)) r1 r2 =
        Dbl.fin (8106479329266893 / 9007199254740992) ∨
      prob_num libm31 (Dbl.fin (1 / 2)) (Dbl.fin 0)
        (Dbl.fin (3602879701896397 / 9007199254740992)) r1 r2 =
        Dbl.fin (900719925474099 / 9007199254740992) := by
  have hm1 : (1 : ℚ) * (3602879701896397 / 9007199254740992) =
      3602879701896397 / 9007199254740992 := by norm_num
  have hm2 : (-1 : ℚ) * (3602879701896397 / 9007199254740992) =
      -(3602879701896397 / 9007199254740992) := by norm_num
  rw [prob_num, libm31_pow, powStd_exp_zero, Dbl.mul_fin, hm1, round64_four_tenths]
  by_cases hsg : Dbl.lt (Dbl.fin 0) (rrand libm31 r1) = true
  · left
    rw [if_pos hsg, Dbl.mul_fin, hm1, round64_four_tenths, Dbl.add_fin, round64_upper]
  · right
    rw [if_neg hsg, Dbl.mul_fin, hm2, round64_neg_four_tenths, Dbl.add_fin, round64_lower]

theorem prob_loop_tenth :
    ∀ rs : List ℕ, prob_loop libm31 tenth (Dbl.fin (1 / 2)) (Dbl.fin (1 / 2)) (Dbl.fin 0)
      (Dbl.fin (3602879701896397 / 9007199254740992)) rs = none
  | [] => by simp [prob_loop]
  | [_] => by simp [prob_loop]
  | r1 :: r2 :: rs => by
    have hup : (Dbl.lt (Dbl.fin (8106479329266893 / 9007199254740992)) tenth ||
        Dbl.lt (Dbl.fin (1 / 2)) (Dbl.fin (8106479329266893 / 9007199254740992))) = true := by
      norm_num [tenth, Dbl.lt_fin]
    have hlo : (Dbl.lt (Dbl.fin (900719925474099 / 9007199254740992)) tenth ||
        Dbl.lt (Dbl.fin (1 / 2)) (Dbl.fin (900719925474099 / 9007199254740992))) = true := by
      norm_num [tenth, Dbl.lt_fin]
    rw [prob_loop]
    rcases prob_num_tenth r1 r2 with h | h
    · rw [h, if_pos hup]
      exact prob_loop_tenth rs
    · rw [h, if_pos hlo]
      exact prob_loop_tenth rs

/-- The `double` nearest to 0.1 is `tenth`. -/
theorem round64_tenth : round64 (1 / 10) = tenth := by
  have h := roundTo_eval 53 (-1022) 1024 (1 / 10) (-4) 7205759403792794
    (by norm_num [abs_div]) (by norm_num [abs_div]) (by norm_num)
    (roundHalfEven_near _ _ (by norm_num) (by norm_num)) (by norm_num [abs_div])
  rw [round64, h, tenth]
  norm_num

/-- C12, at the failing input: `prob(0.1, 0.5, 0.5, 0)` is a valid input
(`low ≤ mid ≤ high`, `tight ≥ 0`) on which no list of values of `rand()` makes
`prob` return.  The larger half-range is the lower one, `mid - low`, which
rounds to the `double` nearest 0.4; the candidate on that side is `0.5 - 0.4 =
0.09999999999999998`, below `low`, and the candidate on the other side is 0.9,
above `high`: whatever the two values of `rand()` are, the candidate of an
iteration is rejected. -/
theorem prob_never_returns :
    round64 (1 / 10) = tenth ∧
      Dbl.le tenth (Dbl.fin (1 / 2)) = true ∧
      Dbl.le (Dbl.fin (1 / 2)) (Dbl.fin (1 / 2)) = true ∧
      Dbl.le (Dbl.fin 0) (Dbl.fin 0) = true ∧
      Dbl.sub round64 (Dbl.fin (1 / 2)) tenth =
        Dbl.fin (3602879701896397 / 9007199254740992) ∧
      (∀ r1 r2 : ℕ,
        (Dbl.lt (prob_num libm31 (Dbl.fin (1 / 2)) (Dbl.fin 0)
            (Dbl.fin (3602879701896397 / 9007199254740992)) r1 r2) tenth ||
          Dbl.lt (Dbl.fin (1 / 2)) (prob_num libm31 (Dbl.fin (1 / 2)) (Dbl.fin 0)
            (Dbl.fin (3602879701896397 / 9007199254740992)) r1 r2)) = true) ∧
      ∀ rs : List ℕ,
        prob libm31 tenth (Dbl.fin (1 / 2)) (Dbl.fin (1 / 2)) (Dbl.fin 0) rs = none := by
  have hs : (1 : ℚ) / 2 - 1 / 2 = 0 := by norm_num
  have hlt : Dbl.lt (Dbl.fin (3602879701896397 / 9007199254740992)) (Dbl.fin 0) = false := by
    norm_num [Dbl.lt_fin]
  have hrange : Dbl.sub round64 (Dbl.fin (1 / 2)) tenth =
      Dbl.fin (3602879701896397 / 9007199254740992) := by
    rw [tenth, Dbl.sub_fin, round64_half_sub_tenth]
  refine ⟨round64_tenth, by norm_num [tenth, Dbl.le], by norm_num [Dbl.le],
    by norm_num [Dbl.le], hrange, fun r1 r2 => ?_, fun rs => ?_⟩
  · rcases prob_num_tenth r1 r2 with h | h
    · rw [h]
      norm_num [tenth, Dbl.lt_fin]
    · rw [h]
      norm_num [tenth, Dbl.lt_fin]
  · rw [prob]
    simp only [tenth, Dbl.sub_fin, hs, round64_zero, round64_half_sub_tenth, hlt,
      Bool.false_eq_true, if_false]
    exact prob_loop_tenth rs

/-! ### The end time written by `kgran_new_grain` -/

theorem round32_int (n : ℤ) (h0 : 0 ≤ n) (hn : n < 16777216) : round32 (n : ℚ) = Dbl.fin n :=
  roundTo_int 24 (-126) 128 n (by norm_num) (by norm_num) h0
    (by
      have : (n : ℚ) < 16777216 := by exact_mod_cast hn
      norm_num
      exact this)

theorem round64_int (n : ℤ) (h0 : 0 ≤ n) (hn : n < 9007199254740992) :
    round64 (n : ℚ) = Dbl.fin n :=
  roundTo_int 53 (-1022) 1024 n (by norm_num) (by norm_num) h0
    (by
      have : (n : ℚ) < 9007199254740992 := by exact_mod_cast hn
      norm_num
      exact this)

/-- The rounding to `double` of a value `q` that is the integer `n`. -/
theorem round64_of_int (n : ℤ) (q r : ℚ) (hq : q = n) (hr : (n : ℚ) = r) (h0 : 0 ≤ n)
    (hn : n < 9007199254740992) : round64 q = Dbl.fin r := by
  rw [hq, round64_int n h0 hn, hr]

/-- The rounding to `float` of a value `q` that is the integer `n`. -/
theorem round32_of_int (n : ℤ) (q r : ℚ) (hq : q = n) (hr : (n : ℚ) = r) (h0 : 0 ≤ n)
    (hn : n < 16777216) : round32 q = Dbl.fin r := by
  rw [hq, round32_int n h0 hn, hr]

theorem cInt_int (n : ℤ) (h1 : -2147483648 ≤ n) (h2 : n ≤ 2147483647) :
    cInt (Dbl.fin (n : ℚ)) = some n := by
  show (if -2147483648 ≤ cTrunc (n : ℚ) ∧ cTrunc (n : ℚ) ≤ 2147483647 then
    some (cTrunc (n : ℚ)) else none) = some n
  rw [cTrunc_intCast, if_pos ⟨h1, h2⟩]

/-- The conversion to `int` of a value `q` that is the integer `n`. -/
theorem cInt_of_int (n : ℤ) (q : ℚ) (hq : q = n) (h1 : -2147483648 ≤ n) (h2 : n ≤ 2147483647) :
    cInt (Dbl.fin q) = some n := by
  rw [hq, cInt_int n h1 h2]

/-- The grain `kgran_new_grain_write` writes, from the two converted times. -/
theorem kgran_new_grain_write_eval (w_envlen head idealShift minShift maxShift : ℤ)
    (increment grainDurSamps panR : Dbl) (c e : ℤ)
    (hc : cInt (Dbl.add round64 (round64 head)
      (Dbl.fmax (Dbl.fmin (round64 idealShift) (round64 maxShift)) (round64 minShift))) = some c)
    (he : cInt (Dbl.add round32 (Dbl.mul round32 grainDurSamps increment) (round32 c)) = some e) :
    kgran_new_grain_write w_envlen head idealShift minShift maxShift increment grainDurSamps
        panR =
      some { waveSampInc := increment
             ampSampInc := Dbl.div round32 (round32 w_envlen) grainDurSamps
             ampPhase := Dbl.fin 0
             endTime := e
             panR := panR
             panL := Dbl.sub round32 (Dbl.fin 1) panR
             currTime := c
             isplaying := true } := by
  unfold kgran_new_grain_write
  rw [hc]
  show (match cInt (Dbl.add round32 (Dbl.mul round32 grainDurSamps increment) (round32 c)) with
    | none => none
    | some endTime => some _) = _
  rw [he]

theorem round32_zero : round32 0 = Dbl.fin 0 := by
  simp [round32, roundTo]

/-- The tie `2^24 + 1` rounds to `2^24` in `float`. -/
theorem round32_late : round32 16777217 = Dbl.fin 16777216 := by
  have h := roundTo_eval 24 (-126) 128 16777217 24 8388608 (by norm_num) (by norm_num)
    (by norm_num)
    (by
      have ht := roundHalfEven_tie_even 8388608 (by norm_num)
      have he : (16777217 : ℚ) / 2 ^ ((24 : ℤ) - (24 : ℕ) + 1) = ((8388608 : ℤ) : ℚ) + 1 / 2 := by
        norm_num
      rw [he, ht])
    (by norm_num)
  rw [round32, h]
  norm_num

/-- Why the amended C8 bounds the start time: with a start time of
`2^24 + 1` and `grainDurSamps * increment = 1`, the `float` sum of line 416
rounds to `2^24` and the grain written is active with `endTime < currTime`. -/
theorem kgran_new_grain_write_late :
    kgran_new_grain_write 512 0 16777217 1 20000000 (Dbl.fin 1) (Dbl.fin 1) (Dbl.fin 0) =
        some lateGrain ∧
      lateGrain.isplaying = true ∧ lateGrain.endTime < lateGrain.currTime := by
  have hclamp : Dbl.fmax (Dbl.fmin (Dbl.fin 16777217) (Dbl.fin 20000000)) (Dbl.fin 1) =
      Dbl.fin 16777217 := by
    have h1 : Dbl.fmin (Dbl.fin 16777217) (Dbl.fin 20000000) = Dbl.fin 16777217 := by
      have hlt : Dbl.lt (Dbl.fin 20000000) (Dbl.fin 16777217) = false := by
        norm_num [Dbl.lt_fin]
      simp [Dbl.fmin, hlt]
    have h2 : Dbl.lt (Dbl.fin 16777217) (Dbl.fin 1) = false := by norm_num [Dbl.lt_fin]
    rw [h1]
    simp [Dbl.fmax, h2]
  have hc : cInt (Dbl.add round64 (round64 ((0 : ℤ) : ℚ))
      (Dbl.fmax (Dbl.fmin (round64 ((16777217 : ℤ) : ℚ)) (round64 ((20000000 : ℤ) : ℚ)))
        (round64 ((1 : ℤ) : ℚ)))) = some 16777217 := by
    rw [round64_of_int 0 _ 0 rfl (by norm_num) (by norm_num) (by norm_num),
      round64_of_int 16777217 _ 16777217 rfl (by norm_num) (by norm_num) (by norm_num),
      round64_of_int 20000000 _ 20000000 rfl (by norm_num) (by norm_num) (by norm_num),
      round64_of_int 1 _ 1 rfl (by norm_num) (by norm_num) (by norm_num), hclamp,
      Dbl.add_fin,
      round64_of_int 16777217 _ 16777217 (by norm_num) (by norm_num) (by norm_num)
        (by norm_num)]
    exact cInt_of_int 16777217 _ (by norm_num) (by norm_num) (by norm_num)
  have hstart : round32 ((16777217 : ℤ) : ℚ) = Dbl.fin 16777216 := by
    have h2 : ((16777217 : ℤ) : ℚ) = 16777217 := by norm_num
    rw [h2, round32_late]
  have hend : round32 ((1 : ℚ) + 16777216) = Dbl.fin 16777216 := by
    have h2 : (1 : ℚ) + 16777216 = 16777217 := by norm_num
    rw [h2, round32_late]
  have he : cInt (Dbl.add round32 (Dbl.mul round32 (Dbl.fin 1) (Dbl.fin 1))
      (round32 ((16777217 : ℤ) : ℚ))) = some 16777216 := by
    rw [Dbl.mul_fin, round32_of_int 1 (1 * 1) 1 (by norm_num) (by norm_num) (by norm_num)
        (by norm_num), hstart, Dbl.add_fin, hend]
    exact cInt_of_int 16777216 _ (by norm_num) (by norm_num) (by norm_num)
  refine ⟨?_, rfl, by norm_num [lateGrain]⟩
  rw [kgran_new_grain_write_eval 512 0 16777217 1 20000000 _ _ _ 16777217 16777216 hc he,
    round32_of_int 512 _ 512 rfl (by norm_num) (by norm_num) (by norm_num),
    Dbl.div_fin _ _ _ (by norm_num),
    round32_of_int 512 (512 / 1) 512 (by norm_num) (by norm_num) (by norm_num) (by norm_num),
    Dbl.sub_fin,
    round32_of_int 1 (1 - 0) 1 (by norm_num) (by norm_num) (by norm_num) (by norm_num)]
  rfl

/-! ### Claim on the end time of a spawned grain -/

end KGran.Ieee
